import Mathlib

/-!
Verification development for the `Volume` module of the `ngl` repository
(`src/src/surface/volume.js`).

The file shallowly embeds the JavaScript code: JS numbers (IEEE doubles,
idealised to exact rationals plus the special values `Infinity`,
`-Infinity`, `NaN` and the non-number `undefined`) are modelled by `JsVal`;
`Float32Array` buffers become `List JsVal`; the mutable `Volume` object
becomes a `Volume` record threaded through explicit state-passing
translations of each prototype method; the process-wide `GidPool` registry
and `Log.warn` become an event log carried in the state; the external
collaborators (marching cubes, smoothing, worker transport) are oracle
parameters, as the spec treats them as black boxes.
-/

/-- A JavaScript number-or-undefined value. `num q` is a finite double
(idealised as an exact rational), the other constructors are the IEEE
special values and the JS `undefined`. -/
inductive JsVal where
  | undef
  | nan
  | posInf
  | negInf
  | num (q : ℚ)
  deriving DecidableEq, Repr

namespace JsVal

/-- JS `isNaN(v)`: coerces to number first, so `isNaN(undefined)` is true,
`isNaN(Infinity)` is false. -/
def jsIsNaN : JsVal → Bool
  | undef => true
  | nan => true
  | _ => false

/-- JS strict equality `===` restricted to numbers and `undefined`:
`NaN === NaN` is false, `undefined === undefined` is true. -/
def jsSEq : JsVal → JsVal → Bool
  | undef, undef => true
  | posInf, posInf => true
  | negInf, negInf => true
  | num a, num b => a = b
  | _, _ => false

/-- JS loose equality `==` on numbers and `undefined`: on these values it
coincides with `===` (coercions only differ for `null`/non-numbers, which
do not occur here). -/
def jsLooseEq (a b : JsVal) : Bool := jsSEq a b

/-- JS `a <= b` (numeric comparison; any comparison involving `NaN` or
`undefined` is false). -/
def jsLe : JsVal → JsVal → Bool
  | undef, _ => false
  | _, undef => false
  | nan, _ => false
  | _, nan => false
  | negInf, _ => true
  | _, posInf => true
  | posInf, _ => false
  | _, negInf => false
  | num a, num b => a ≤ b

/-- JS `a < b`. -/
def jsLt : JsVal → JsVal → Bool
  | undef, _ => false
  | _, undef => false
  | nan, _ => false
  | _, nan => false
  | posInf, _ => false
  | _, negInf => false
  | negInf, _ => true
  | _, posInf => true
  | num a, num b => a < b

/-- JS `a >= b`. -/
def jsGe (a b : JsVal) : Bool := jsLe b a

/-- JS `a > b`. -/
def jsGt (a b : JsVal) : Bool := jsLt b a

/-- JS truthiness of a numeric value: `0`, `NaN` and `undefined` are falsy. -/
def jsTruthy : JsVal → Bool
  | undef => false
  | nan => false
  | num q => q ≠ 0
  | _ => true

/-- `Math.min`, as used by `Vector3.min` and the statistics scan: `NaN`
(or `undefined`, which coerces to `NaN`) poisons the result. -/
def jsMin : JsVal → JsVal → JsVal
  | undef, _ => nan
  | _, undef => nan
  | nan, _ => nan
  | _, nan => nan
  | negInf, _ => negInf
  | _, negInf => negInf
  | posInf, b => b
  | a, posInf => a
  | num a, num b => num (min a b)

/-- `Math.max`. -/
def jsMax : JsVal → JsVal → JsVal
  | undef, _ => nan
  | _, undef => nan
  | nan, _ => nan
  | _, nan => nan
  | posInf, _ => posInf
  | _, posInf => posInf
  | negInf, b => b
  | a, negInf => a
  | num a, num b => num (max a b)

/-- JS addition on numbers; `undefined` coerces to `NaN`,
`Infinity + -Infinity` is `NaN`. -/
def jsAdd : JsVal → JsVal → JsVal
  | undef, _ => nan
  | _, undef => nan
  | nan, _ => nan
  | _, nan => nan
  | posInf, negInf => nan
  | negInf, posInf => nan
  | posInf, _ => posInf
  | _, posInf => posInf
  | negInf, _ => negInf
  | _, negInf => negInf
  | num a, num b => num (a + b)

/-- JS unary negation. -/
def jsNeg : JsVal → JsVal
  | undef => nan
  | nan => nan
  | posInf => negInf
  | negInf => posInf
  | num a => num (-a)

/-- JS multiplication; `0 * Infinity` is `NaN`. -/
def jsMul : JsVal → JsVal → JsVal
  | undef, _ => nan
  | _, undef => nan
  | nan, _ => nan
  | _, nan => nan
  | posInf, posInf => posInf
  | posInf, negInf => negInf
  | negInf, posInf => negInf
  | negInf, negInf => posInf
  | posInf, num b => if b = 0 then nan else if 0 < b then posInf else negInf
  | num a, posInf => if a = 0 then nan else if 0 < a then posInf else negInf
  | negInf, num b => if b = 0 then nan else if 0 < b then negInf else posInf
  | num a, negInf => if a = 0 then nan else if 0 < a then negInf else posInf
  | num a, num b => num (a * b)

/-- JS division; `x / 0` is a signed infinity (`NaN` for `0 / 0`),
`finite / Infinity` is `0`, `Infinity / Infinity` is `NaN`. -/
def jsDiv : JsVal → JsVal → JsVal
  | undef, _ => nan
  | _, undef => nan
  | nan, _ => nan
  | _, nan => nan
  | posInf, posInf => nan
  | posInf, negInf => nan
  | negInf, posInf => nan
  | negInf, negInf => nan
  | posInf, num b => if 0 ≤ b then posInf else negInf
  | negInf, num b => if 0 ≤ b then negInf else posInf
  | num _, posInf => num 0
  | num _, negInf => num 0
  | num a, num b =>
      if b = 0 then (if a = 0 then nan else if 0 < a then posInf else negInf)
      else num (a / b)

/-- `Math.round` (used by `Vector3.round` in `getBox`): rounds half-way
cases toward `+Infinity`. -/
def jsRound : JsVal → JsVal
  | undef => nan
  | nan => nan
  | posInf => posInf
  | negInf => negInf
  | num q => num (⌊q + 1/2⌋ : ℤ)

/-- Storing a value into a `Float32Array` slot: `undefined` is coerced to
`NaN`; every other value is kept (float narrowing is idealised away). -/
def f32 : JsVal → JsVal
  | undef => nan
  | v => v

@[simp] theorem jsMin_posInf_left (b : JsVal) (h : b ≠ undef) (h2 : b ≠ nan) :
    jsMin posInf b = b := by cases b <;> simp_all [jsMin]

@[simp] theorem jsMin_num_num (a b : ℚ) : jsMin (num a) (num b) = num (min a b) := rfl

@[simp] theorem jsMax_negInf_left (b : JsVal) (h : b ≠ undef) (h2 : b ≠ nan) :
    jsMax negInf b = b := by cases b <;> simp_all [jsMax]

@[simp] theorem jsMax_num_num (a b : ℚ) : jsMax (num a) (num b) = num (max a b) := rfl

@[simp] theorem jsAdd_num_num (a b : ℚ) : jsAdd (num a) (num b) = num (a + b) := rfl

@[simp] theorem jsMul_num_num (a b : ℚ) : jsMul (num a) (num b) = num (a * b) := rfl

@[simp] theorem f32_num (q : ℚ) : f32 (num q) = num q := rfl

end JsVal

/-- A JS number that may be irrational: the statistics path applies
`Math.sqrt`, whose exact value leaves ℚ, so values flowing out of
`getDataRms` / `getValueForSigma` live over ℝ. -/
inductive JsR where
  | nan
  | posInf
  | negInf
  | num (x : ℝ)

namespace JsR

/-- Inclusion of the rational-valued JS numbers; `undefined` coerces to
`NaN` when it reaches arithmetic. -/
def ofVal : JsVal → JsR
  | .undef => nan
  | .nan => nan
  | .posInf => posInf
  | .negInf => negInf
  | .num q => num (q : ℝ)

/-- JS addition over ℝ-valued numbers. -/
noncomputable def add : JsR → JsR → JsR
  | nan, _ => nan
  | _, nan => nan
  | posInf, negInf => nan
  | negInf, posInf => nan
  | posInf, _ => posInf
  | _, posInf => posInf
  | negInf, _ => negInf
  | _, negInf => negInf
  | num a, num b => num (a + b)

/-- JS multiplication over ℝ-valued numbers. -/
noncomputable def mul : JsR → JsR → JsR
  | nan, _ => nan
  | _, nan => nan
  | posInf, posInf => posInf
  | posInf, negInf => negInf
  | negInf, posInf => negInf
  | negInf, negInf => posInf
  | posInf, num b => if b = 0 then nan else if 0 < b then posInf else negInf
  | num a, posInf => if a = 0 then nan else if 0 < a then posInf else negInf
  | negInf, num b => if b = 0 then nan else if 0 < b then negInf else posInf
  | num a, negInf => if a = 0 then nan else if 0 < a then negInf else posInf
  | num a, num b => num (a * b)

/-- `Math.sqrt` on a rational-valued JS number: negative input gives
`NaN`, `sqrt(Infinity)` is `Infinity`. -/
noncomputable def jsSqrt : JsVal → JsR
  | .undef => nan
  | .nan => nan
  | .negInf => nan
  | .posInf => posInf
  | .num q => if q < 0 then nan else num (Real.sqrt (q : ℝ))

end JsR

/-! ### THREE.js matrices (exact-arithmetic idealisation)

`THREE.Matrix4`/`Matrix3` store their elements column-major
(`elements[c*4+r]` is the entry at row `r`, column `c`); the embedding
works with the abstract matrix and translates each `elements[...]` access
accordingly. -/

/-- A `THREE.Matrix4` over exact rationals. -/
abbrev Mat4 := Matrix (Fin 4) (Fin 4) ℚ

/-- A `THREE.Matrix3` over exact rationals. -/
abbrev Mat3 := Matrix (Fin 3) (Fin 3) ℚ

/-- `Matrix4.toArray`: the 16 elements in column-major order. -/
def mat4ToArray (m : Mat4) : List ℚ :=
  [m 0 0, m 1 0, m 2 0, m 3 0,
   m 0 1, m 1 1, m 2 1, m 3 1,
   m 0 2, m 1 2, m 2 2, m 3 2,
   m 0 3, m 1 3, m 2 3, m 3 3]

/-- `Matrix4.fromArray`: rebuild from a column-major 16-element array
(missing entries would be `undefined`; serialized arrays are always full,
so the default is irrelevant). -/
def mat4FromArray (l : List ℚ) : Mat4 :=
  Matrix.of fun i j => l.getD (j.val * 4 + i.val) 0

/-- `Matrix3.toArray`: the 9 elements in column-major order. -/
def mat3ToArray (m : Mat3) : List ℚ :=
  [m 0 0, m 1 0, m 2 0,
   m 0 1, m 1 1, m 2 1,
   m 0 2, m 1 2, m 2 2]

/-- `Matrix3.fromArray`. -/
def mat3FromArray (l : List ℚ) : Mat3 :=
  Matrix.of fun i j => l.getD (j.val * 3 + i.val) 0

/-- The upper-left 3×3 linear part of a 4×4 transform. -/
def linPart (m : Mat4) : Mat3 :=
  !![m 0 0, m 0 1, m 0 2;
     m 1 0, m 1 1, m 1 2;
     m 2 0, m 2 1, m 2 2]

/-- `THREE.Vector3.crossVectors` on rational triples:
`(a × b).x = a.y*b.z - a.z*b.y`, etc. -/
def cross3 (a b : ℚ × ℚ × ℚ) : ℚ × ℚ × ℚ :=
  (a.2.1 * b.2.2 - a.2.2 * b.2.1,
   a.2.2 * b.1 - a.1 * b.2.2,
   a.1 * b.2.1 - a.2.1 * b.1)

/-- Column `j` of the linear part of a `Matrix4`: the source's
`r0 = (me[0], me[1], me[2])` etc. read the elements array column-major,
so the vectors the code calls rows are in fact the columns. -/
def colVec (m : Mat4) (j : Fin 4) : ℚ × ℚ × ℚ := (m 0 j, m 1 j, m 2 j)

/-- Row `i` of the linear part of a `Matrix4` (used to state the spec's
row-vector description of the normal matrix). -/
def rowVec (m : Mat4) (i : Fin 4) : ℚ × ℚ × ℚ := (m i 0, m i 1, m i 2)

/-- The normal-matrix computation of `Volume.setMatrix`, lines 133-155:
`cp = r1 × r2` is written to `ne[0..2]` (column 0 of the `Matrix3`),
`r2 × r0` to column 1, `r0 × r1` to column 2, where `r0, r1, r2` are the
columns of the linear part (the code reads `me[0..2]`, `me[4..6]`,
`me[8..10]` of the column-major elements array). -/
def normalFromMatrix (m : Mat4) : Mat3 :=
  let cp0 := cross3 (colVec m 1) (colVec m 2)
  let cp1 := cross3 (colVec m 2) (colVec m 0)
  let cp2 := cross3 (colVec m 0) (colVec m 1)
  Matrix.of
    ![![cp0.1, cp1.1, cp2.1],
      ![cp0.2.1, cp1.2.1, cp2.2.1],
      ![cp0.2.2, cp1.2.2, cp2.2.2]]

/-- `THREE.Matrix4.getInverse` (r7x era): computes `adjugate / det`,
which is the exact inverse; a singular matrix yields the identity (after
a console warning). -/
def mat4GetInverse (m : Mat4) : Mat4 :=
  if m.det = 0 then 1 else m.det⁻¹ • m.adjugate

/-- `Vector3.applyMatrix4` (r7x: affine application, no perspective
divide) on a rational triple. -/
def mat4ApplyQ (m : Mat4) (p : ℚ × ℚ × ℚ) : ℚ × ℚ × ℚ :=
  (m 0 0 * p.1 + m 0 1 * p.2.1 + m 0 2 * p.2.2 + m 0 3,
   m 1 0 * p.1 + m 1 1 * p.2.1 + m 1 2 * p.2.2 + m 1 3,
   m 2 0 * p.1 + m 2 1 * p.2.1 + m 2 2 * p.2.2 + m 2 3)

open JsVal in
/-- A `THREE.Vector3` whose components are JS values (they are `undefined`
after the broken `fromJSON` bounding-box restore, and infinite in an empty
`Box3`). -/
structure V3 where
  x : JsVal
  y : JsVal
  z : JsVal
  deriving DecidableEq, Repr

/-- A `THREE.Box3`. -/
structure Box3 where
  min : V3
  max : V3
  deriving DecidableEq, Repr

namespace V3

/-- `Vector3.applyMatrix4` on JS-valued components
(`e[0]*x + e[4]*y + e[8]*z + e[12]`, left-associated as in the source). -/
def applyMat4 (m : Mat4) (p : V3) : V3 :=
  ⟨((((JsVal.num (m 0 0)).jsMul p.x).jsAdd ((JsVal.num (m 0 1)).jsMul p.y)).jsAdd
      ((JsVal.num (m 0 2)).jsMul p.z)).jsAdd (JsVal.num (m 0 3)),
   ((((JsVal.num (m 1 0)).jsMul p.x).jsAdd ((JsVal.num (m 1 1)).jsMul p.y)).jsAdd
      ((JsVal.num (m 1 2)).jsMul p.z)).jsAdd (JsVal.num (m 1 3)),
   ((((JsVal.num (m 2 0)).jsMul p.x).jsAdd ((JsVal.num (m 2 1)).jsMul p.y)).jsAdd
      ((JsVal.num (m 2 2)).jsMul p.z)).jsAdd (JsVal.num (m 2 3))⟩

@[simp] theorem applyMat4_num (m : Mat4) (a b c : ℚ) :
    applyMat4 m ⟨.num a, .num b, .num c⟩ =
      ⟨.num (m 0 0 * a + m 0 1 * b + m 0 2 * c + m 0 3),
       .num (m 1 0 * a + m 1 1 * b + m 1 2 * c + m 1 3),
       .num (m 2 0 * a + m 2 1 * b + m 2 2 * c + m 2 3)⟩ := rfl

/-- `Vector3.toArray`. -/
def toArray (p : V3) : List JsVal := [p.x, p.y, p.z]

/-- `Vector3.fromArray` (reads indices 0, 1, 2; a missing index reads as
`undefined`). -/
def fromArray (l : List JsVal) : V3 :=
  ⟨l.getD 0 .undef, l.getD 1 .undef, l.getD 2 .undef⟩

/-- `Vector3.copy(v)` where `v` is a plain JS `Array` instead of a
`Vector3` (as happens in `Volume.fromJSON`, which hands the serialized
`boundingBox.min`/`max` arrays to `Box3.set`): `copy` reads the
properties `v.x`, `v.y`, `v.z`, which do not exist on an `Array`, so
every component becomes `undefined`. -/
def copyFromPlainArray (_l : List JsVal) : V3 := ⟨.undef, .undef, .undef⟩

/-- `Vector3.round` (componentwise `Math.round`). -/
def round (p : V3) : V3 := ⟨p.x.jsRound, p.y.jsRound, p.z.jsRound⟩

end V3

namespace Box3

/-- `new THREE.Box3()` / `Box3.makeEmpty()`: `min = (+∞,+∞,+∞)`,
`max = (-∞,-∞,-∞)`. -/
def empty : Box3 := ⟨⟨.posInf, .posInf, .posInf⟩, ⟨.negInf, .negInf, .negInf⟩⟩

/-- `Box3.expandByPoint`. -/
def expandByPoint (b : Box3) (p : V3) : Box3 :=
  ⟨⟨b.min.x.jsMin p.x, b.min.y.jsMin p.y, b.min.z.jsMin p.z⟩,
   ⟨b.max.x.jsMax p.x, b.max.y.jsMax p.y, b.max.z.jsMax p.z⟩⟩

/-- The 8 corner points of a box, in the order `Box3.applyMatrix4`
(r7x) enumerates them. -/
def corners (b : Box3) : List V3 :=
  [⟨b.min.x, b.min.y, b.min.z⟩, ⟨b.min.x, b.min.y, b.max.z⟩,
   ⟨b.min.x, b.max.y, b.min.z⟩, ⟨b.min.x, b.max.y, b.max.z⟩,
   ⟨b.max.x, b.min.y, b.min.z⟩, ⟨b.max.x, b.min.y, b.max.z⟩,
   ⟨b.max.x, b.max.y, b.min.z⟩, ⟨b.max.x, b.max.y, b.max.z⟩]

/-- `Box3.setFromPoints` (expand an empty box by each point in turn). -/
def setFromPoints (ps : List V3) : Box3 := ps.foldl expandByPoint empty

/-- `Box3.applyMatrix4` (r7x): transform the 8 corners, then take their
axis-aligned bounding box. -/
def applyMat4 (b : Box3) (m : Mat4) : Box3 :=
  setFromPoints (b.corners.map (V3.applyMat4 m))

/-- `Box3.center`: `(min + max) * 0.5`. -/
def center (b : Box3) : V3 :=
  ⟨(b.min.x.jsAdd b.max.x).jsMul (.num (1/2)),
   (b.min.y.jsAdd b.max.y).jsMul (.num (1/2)),
   (b.min.z.jsAdd b.max.z).jsMul (.num (1/2))⟩

/-- `Box3.expandByScalar`. -/
def expandByScalar (b : Box3) (s : JsVal) : Box3 :=
  ⟨⟨b.min.x.jsAdd s.jsNeg, b.min.y.jsAdd s.jsNeg, b.min.z.jsAdd s.jsNeg⟩,
   ⟨b.max.x.jsAdd s, b.max.y.jsAdd s, b.max.z.jsAdd s⟩⟩

end Box3

/-- `Matrix4.applyToVector3Array` (r7x): apply the affine transform to
each consecutive `(x, y, z)` triple of a flat array in place. -/
def applyToVector3Array (m : Mat4) : List JsVal → List JsVal
  | a :: b :: c :: rest => (V3.applyMat4 m ⟨a, b, c⟩).toArray ++ applyToVector3Array m rest
  | l => l

/-- `Vector3.applyMatrix3`. -/
def V3.applyMat3 (n : Mat3) (p : V3) : V3 :=
  ⟨(((JsVal.num (n 0 0)).jsMul p.x).jsAdd ((JsVal.num (n 0 1)).jsMul p.y)).jsAdd
      ((JsVal.num (n 0 2)).jsMul p.z),
   (((JsVal.num (n 1 0)).jsMul p.x).jsAdd ((JsVal.num (n 1 1)).jsMul p.y)).jsAdd
      ((JsVal.num (n 1 2)).jsMul p.z),
   (((JsVal.num (n 2 0)).jsMul p.x).jsAdd ((JsVal.num (n 2 1)).jsMul p.y)).jsAdd
      ((JsVal.num (n 2 2)).jsMul p.z)⟩

/-- `Matrix3.applyToVector3Array` (used on the surface normal buffer). -/
def applyToVector3Array3 (n : Mat3) : List JsVal → List JsVal
  | a :: b :: c :: rest => (V3.applyMat3 n ⟨a, b, c⟩).toArray ++ applyToVector3Array3 n rest
  | l => l

/-! ### The `Volume` state -/

/-- The optional format header (`this.header`), read by `filterData` for
its domain-specific `minValue` default `DMEAN + 2 * ARMS`. -/
structure HeaderInfo where
  DMEAN : ℚ
  ARMS : ℚ
  deriving DecidableEq, Repr

/-- Observable interactions with the process-wide collaborators: the
`GidPool` registry calls and the `Log.warn` diagnostic. -/
inductive RegEvent where
  | addObject
  | updateObject
  | removeObject
  | warnTooLarge
  deriving DecidableEq, Repr

/-- The arguments captured by the lazily created `MarchingCubes` instance
(`this.mc`), tied to one generation of samples. -/
structure MCSnapshot where
  data : List JsVal
  nx : ℕ
  ny : ℕ
  nz : ℕ
  dataAtomindex : Option (List ℤ)

/-- A handle on the lazily created `WorkerPool("surf", 2)`: two reusable
workers used round-robin (`getNextWorker`), each with its own `postCount`;
`terminate` flips the flag. The pool itself is an external collaborator,
so only the bits this file observes are modelled. -/
structure WorkerPoolH where
  terminated : Bool
  postCountA : ℕ
  postCountB : ℕ
  nextIdx : Bool
  deriving DecidableEq, Repr

/-- The mutable state of a `Volume` object. Fields named `__foo` mirror
the source's private cache properties; an `Option` value of `none` models
a property that is absent / `delete`d. `log` records the registry and
warning interactions. -/
structure Volume where
  name : Option String := none
  path : Option String := none
  matrix : Mat4 := 1
  normalMatrix : Mat3 := 1
  inverseMatrix : Mat4 := 1
  center : V3 := ⟨.num 0, .num 0, .num 0⟩
  boundingBox : Box3 := Box3.empty
  nx : ℕ := 1
  ny : ℕ := 1
  nz : ℕ := 1
  data : List JsVal := []
  __data : List JsVal := []
  dataAtomindex : Option (List ℤ) := none
  __dataAtomindex : Option (List ℤ) := none
  __dataAtomindexBuffer : Option (List ℤ) := none
  header : Option HeaderInfo := none
  mc : Option MCSnapshot := none
  __isolevel : Option JsVal := none
  __smooth : Option JsVal := none
  __box : Option Box3 := none
  __minValue : JsVal := .undef
  __maxValue : JsVal := .undef
  __outside : Option Bool := none
  dataPosition : Option (List JsVal) := none
  __dataPosition : Option (List JsVal) := none
  __dataPositionBuffer : Option (List JsVal) := none
  __dataBuffer : Option (List JsVal) := none
  __dataMin : Option JsVal := none
  __dataMax : Option JsVal := none
  __dataMean : Option JsVal := none
  __dataRms : Option JsR := none
  worker : Option WorkerPoolH := none
  workerPool : Option WorkerPoolH := none
  log : List RegEvent := []

namespace Volume

/-- JS `n || 1` on a grid extent (also maps an explicit `0` to `1`). -/
def natOr1 : Option ℕ → ℕ
  | none => 1
  | some 0 => 1
  | some k => k

/-- `Volume.setDataAtomindex`, lines 161-168. -/
def setDataAtomindex (v : Volume) (dai : Option (List ℤ)) : Volume :=
  { v with dataAtomindex := dai, __dataAtomindex := dai, __dataAtomindexBuffer := none }

/-- `Volume.setData`, lines 70-106: replaces the raw samples and grid
extents (absent samples become `new Float32Array(1)`, i.e. `[0]`; absent
or zero extents become 1), drops the cached triangulation instance and the
statistic / filter / position caches, terminates `this.worker` (a field
nothing in the file ever assigns - the pool lives in `this.workerPool`),
and notifies the registry, or warns and removes when the sample count
exceeds `10^7`. Note: the `dataPosition` property (set by
`makeDataPosition`) is not deleted, only `__dataPosition` is. -/
def setData (v : Volume) (data : Option (List JsVal)) (nx ny nz : Option ℕ)
    (dataAtomindex : Option (List ℤ)) : Volume :=
  let d := data.getD [.num 0]
  let v := { v with nx := natOr1 nx, ny := natOr1 ny, nz := natOr1 nz, data := d, __data := d }
  let v := setDataAtomindex v dataAtomindex
  let v := { v with
    mc := none,
    __isolevel := none, __smooth := none,
    __minValue := .undef, __maxValue := .undef,
    __dataPositionBuffer := none, __dataPosition := none, __dataBuffer := none,
    __dataMin := none, __dataMax := none, __dataMean := none, __dataRms := none,
    worker := v.worker.map fun (w : WorkerPoolH) => { w with terminated := true } }
  if d.length ≤ 10 ^ 7 then { v with log := v.log ++ [.updateObject] }
  else { v with log := v.log ++ [.warnTooLarge, .removeObject] }

/-- The `Volume` constructor, lines 46-63: fresh THREE objects (identity
matrices, zero center, empty bounding box), then `setData`, then registry
`addObject` unless the sample count exceeds `10^7`. -/
def create (name path : Option String) (data : Option (List JsVal)) (nx ny nz : Option ℕ)
    (dataAtomindex : Option (List ℤ)) : Volume :=
  let v : Volume := { name := name, path := path }
  let v := setData v data nx ny nz dataAtomindex
  if v.__data.length ≤ 10 ^ 7 then { v with log := v.log ++ [.addObject] } else v

/-- `Volume.setMatrix`, lines 108-159: store the matrix, rebuild the
bounding box by expanding an empty box with the 8 grid corners (in source
order) and transforming it, take its center, rebuild the normal matrix
from cross products and the inverse matrix. -/
def setMatrix (v : Volume) (m : Mat4) : Volume :=
  let x : ℚ := (v.nx : ℚ) - 1
  let y : ℚ := (v.ny : ℚ) - 1
  let z : ℚ := (v.nz : ℚ) - 1
  let bb := Box3.empty
  let bb := bb.expandByPoint ⟨.num x, .num y, .num z⟩
  let bb := bb.expandByPoint ⟨.num x, .num y, .num 0⟩
  let bb := bb.expandByPoint ⟨.num x, .num 0, .num z⟩
  let bb := bb.expandByPoint ⟨.num x, .num 0, .num 0⟩
  let bb := bb.expandByPoint ⟨.num 0, .num y, .num z⟩
  let bb := bb.expandByPoint ⟨.num 0, .num 0, .num z⟩
  let bb := bb.expandByPoint ⟨.num 0, .num y, .num 0⟩
  let bb := bb.expandByPoint ⟨.num 0, .num 0, .num 0⟩
  let bb := bb.applyMat4 m
  { v with matrix := m, boundingBox := bb, center := bb.center,
           normalMatrix := normalFromMatrix m, inverseMatrix := mat4GetInverse m }

/-- `Volume.getBox`, lines 170-183: a degenerate box at `center`, expanded
by `size`, mapped to grid space by the inverse matrix, corners rounded. -/
def getBox (v : Volume) (center : V3) (size : JsVal) : Box3 :=
  let b : Box3 := ⟨center, center⟩
  let b := b.expandByScalar size
  let b := b.applyMat4 v.inverseMatrix
  ⟨b.min.round, b.max.round⟩

/-- `Volume.makeDataPosition`, lines 407-440: the lazy grid-position
sweep (z outer, y middle, x inner) transformed through the matrix; caches
the result in both `dataPosition` and `__dataPosition`. -/
def makeDataPosition (v : Volume) : Volume :=
  let raw := (List.range v.nz).flatMap fun z =>
    (List.range v.ny).flatMap fun y =>
      (List.range v.nx).flatMap fun x =>
        [JsVal.num x, JsVal.num y, JsVal.num z]
  let pos := applyToVector3Array v.matrix raw
  { v with dataPosition := some pos, __dataPosition := some pos }

/-- The retention test of the `filterData` scan, lines 376-378:
`(!outside && v >= minValue && v <= maxValue) ||
 (outside && (v < minValue || v > maxValue))`. -/
def keepSample (outside : Bool) (minV maxV v : JsVal) : Bool :=
  (!outside && v.jsGe minV && v.jsLe maxV) || (outside && (v.jsLt minV || v.jsGt maxV))

/-- The scan loop of `filterData`, lines 369-392: walk the samples with
index `i`, keeping a write cursor `j` into the reused backing buffers.
A kept sample copies `dataPosition[3i .. 3i+2]` and the value into the
buffers at `3j .. 3j+2` / `j`. If `dataPosition` is `undefined` (the
`__dataPosition` cache was deleted), reading `dataPosition[i3]` throws a
`TypeError`, modelled by `none`. -/
def filterLoop (outside : Bool) (minV maxV : JsVal) (dp : Option (List JsVal)) :
    List JsVal → ℕ → List JsVal → List JsVal → ℕ →
    Option (List JsVal × List JsVal × ℕ)
  | [], _, bufP, bufD, j => some (bufP, bufD, j)
  | v :: rest, i, bufP, bufD, j =>
    if keepSample outside minV maxV v then
      match dp with
      | none => none
      | some pos =>
        let bufP := ((bufP.set (3 * j) (pos.getD (3 * i) .undef).f32).set (3 * j + 1)
            (pos.getD (3 * i + 1) .undef).f32).set (3 * j + 2) (pos.getD (3 * i + 2) .undef).f32
        let bufD := bufD.set j v.f32
        filterLoop outside minV maxV dp rest (i + 1) bufP bufD (j + 1)
    else filterLoop outside minV maxV dp rest (i + 1) bufP bufD j

/-- Which branch of `filterData` ran (observable as: no work, view
aliasing, or a full recomputation scan). -/
inductive FilterBranch where
  | skipped
  | fastPath
  | general
  deriving DecidableEq, Repr

/-- The outcome of a `filterData` call: the updated volume and the branch
taken, or a thrown `TypeError`. -/
inductive FilterResult where
  | crash
  | ok (vol : Volume) (branch : FilterBranch)

/-- The branch of a non-throwing `filterData` call. -/
def FilterResult.branch? : FilterResult → Option FilterBranch
  | .crash => none
  | .ok _ b => some b

/-- The volume of a non-throwing `filterData` call (with a fallback for
the throwing case). -/
def FilterResult.volD : FilterResult → Volume → Volume
  | .crash, d => d
  | .ok v _, _ => v

/-- The `minValue` defaulting of `filterData`, lines 324-328: a `NaN`
`minValue` with a header present becomes `DMEAN + 2*ARMS`; then a missing
or `NaN` `minValue` becomes `-Infinity`. -/
def filterMinResolved (header : Option HeaderInfo) (minValue : JsVal) : JsVal :=
  let minValue := match header with
    | some h => if minValue.jsIsNaN then .num (h.DMEAN + 2 * h.ARMS) else minValue
    | none => minValue
  if minValue ≠ JsVal.undef ∧ minValue.jsIsNaN = false then minValue else JsVal.negInf

/-- The `maxValue` defaulting of `filterData`, line 329: a missing
`maxValue` becomes `Infinity` (a `NaN` one is kept). -/
def filterMaxResolved (maxValue : JsVal) : JsVal :=
  if maxValue = JsVal.undef then JsVal.posInf else maxValue

/-- The one-time allocation of the reused backing `ArrayBuffer`s, lines
357-364: sized for the current canonical sample count `n`. -/
def ensureFilterBuffers (v : Volume) (n : ℕ) : Volume :=
  if v.__dataBuffer.isNone then
    { v with __dataPositionBuffer := some (List.replicate (n * 3) (.num 0)),
             __dataBuffer := some (List.replicate n (.num 0)) }
  else v

/-- The general (scanning) branch of `filterData`, lines 353-399:
allocate the buffers once, run the scan, and expose right-sized views
(`j` values, `j*3` position components) over the buffer prefixes. -/
def filterGeneral (v : Volume) (dataPosition : Option (List JsVal)) (data : List JsVal)
    (minValue maxValue : JsVal) (outside : Bool) : FilterResult :=
  let n := data.length
  let v := ensureFilterBuffers v n
  match filterLoop outside minValue maxValue dataPosition data 0
      (v.__dataPositionBuffer.getD []) (v.__dataBuffer.getD []) 0 with
  | none => .crash
  | some (bufP, bufD, j) =>
    .ok { v with __dataPositionBuffer := some bufP, __dataBuffer := some bufD,
                 dataPosition := some (bufP.take (j * 3)), data := bufD.take j,
                 __minValue := minValue, __maxValue := maxValue,
                 __outside := some outside } .general

/-- `Volume.filterData`, lines 322-405. Defaulting as in
`filterMinResolved` / `filterMaxResolved`; `outside || false` is the
identity on booleans. The grid positions are computed lazily if the
`dataPosition` property is absent. Then: skip if the triple strictly
equals the last applied one; alias the canonical arrays if the range is
`(-Infinity, Infinity)`; otherwise run the scanning branch. -/
def filterData (v : Volume) (minValue maxValue : JsVal) (outside : Bool) : FilterResult :=
  let minValue := filterMinResolved v.header minValue
  let maxValue := filterMaxResolved maxValue
  let v := if v.dataPosition.isNone then makeDataPosition v else v
  let dataPosition := v.__dataPosition
  let data := v.__data
  if minValue.jsSEq v.__minValue && maxValue.jsLooseEq v.__maxValue
      && (v.__outside == some outside) then
    .ok v .skipped
  else if minValue = JsVal.negInf ∧ maxValue = JsVal.posInf then
    .ok { v with dataPosition := dataPosition, data := data,
                 __minValue := minValue, __maxValue := maxValue,
                 __outside := some outside } .fastPath
  else
    filterGeneral v dataPosition data minValue maxValue outside

/-- `Volume.getDataMin`, lines 544-562 (memoized linear scan from
`Infinity`). -/
def getDataMin (v : Volume) : Volume × JsVal :=
  match v.__dataMin with
  | some m => (v, m)
  | none =>
    let m := v.__data.foldl JsVal.jsMin .posInf
    ({ v with __dataMin := some m }, m)

/-- `Volume.getDataMax`, lines 564-582. -/
def getDataMax (v : Volume) : Volume × JsVal :=
  match v.__dataMax with
  | some m => (v, m)
  | none =>
    let m := v.__data.foldl JsVal.jsMax .negInf
    ({ v with __dataMax := some m }, m)

/-- `Volume.getDataMean`, lines 584-602: `sum / n` (so `NaN` for an
explicitly empty sample array, where JS computes `0 / 0`). -/
def getDataMean (v : Volume) : Volume × JsVal :=
  match v.__dataMean with
  | some m => (v, m)
  | none =>
    let sum := v.__data.foldl JsVal.jsAdd (.num 0)
    let m := sum.jsDiv (.num v.__data.length)
    ({ v with __dataMean := some m }, m)

/-- `Volume.getDataRms`, lines 604-624: `sqrt(sum(v_i^2) / n)`. -/
noncomputable def getDataRms (v : Volume) : Volume × JsR :=
  match v.__dataRms with
  | some r => (v, r)
  | none =>
    let sumSq := v.__data.foldl (fun (acc d : JsVal) => acc.jsAdd (d.jsMul d)) (.num 0)
    let r := JsR.jsSqrt (sumSq.jsDiv (.num v.__data.length))
    ({ v with __dataRms := some r }, r)

/-- `Volume.getValueForSigma`, lines 306-312: `mean + sigma * rms`, with
`sigma` defaulting to 2 when `undefined`. -/
noncomputable def getValueForSigma (v : Volume) (sigma : JsVal) : Volume × JsR :=
  let sigma := if sigma = JsVal.undef then JsVal.num 2 else sigma
  let (v, mean) := getDataMean v
  let (v, rms) := getDataRms v
  (v, (JsR.ofVal mean).add ((JsR.ofVal sigma).mul rms))

/-- The shared first line of `getSurface` (185-187) and `getSurfaceWorker`
(248-250): `isolevel = isNaN(isolevel) ? this.getValueForSigma(2) :
isolevel`. The resolved isolevel is an ℝ-valued number (the sigma default
involves `sqrt`). -/
noncomputable def resolveIsolevel (v : Volume) (isolevel : JsVal) : Volume × JsR :=
  if isolevel.jsIsNaN then getValueForSigma v (.num 2) else (v, JsR.ofVal isolevel)

end Volume

/-! ### Surface extraction and the worker path -/

/-- The `{position, index, normal?}` record returned by
`MarchingCubes.triangulate`. -/
structure SurfData where
  position : List JsVal
  index : List ℤ
  normal : Option (List JsVal)

/-- The packaged `Surface` (only the parts this file produces: buffers
plus the `{isolevel, smooth}` metadata stored in `surface.info`). -/
structure SurfaceM where
  position : List JsVal
  index : List ℤ
  normal : Option (List JsVal)
  isolevel : JsR
  smooth : JsVal

/-- The external black-box routines consumed by surface extraction:
the marching-cubes triangulation (bound to an `MCSnapshot`), the in-place
Laplacian smoothing (modelled as returning the smoothed positions), and
the per-vertex normal recomputation. -/
structure ExtOracles where
  triangulate : MCSnapshot → JsR → Bool → Option (List JsVal × List JsVal) → SurfData
  laplacianSmooth : List JsVal → List ℤ → JsVal → Bool → List JsVal
  computeNormals : List JsVal → List ℤ → List JsVal

namespace Volume

/-- The body of `Volume.getSurface` after the isolevel/smooth defaulting,
lines 192-245: lazily (re)create the `MarchingCubes` snapshot, compute the
optional restriction box, triangulate (with smoothing and normal
recomputation when `smooth` is truthy), transform positions by `matrix`
and normals by `normalMatrix`, and package the surface with its
`{isolevel, smooth}` metadata. -/
noncomputable def getSurfaceCore (ext : ExtOracles) (v : Volume) (isolevel : JsR)
    (smooth : JsVal) (center : Option V3) (size : Option JsVal) : Volume × SurfaceM :=
  let (v, snap) := match v.mc with
    | some s => (v, s)
    | none =>
      let s : MCSnapshot := ⟨v.__data, v.nx, v.ny, v.nz, v.__dataAtomindex⟩
      ({ v with mc := some s }, s)
  let (v, box) := match center, size with
    | some c, some s =>
      let b := getBox v c s
      ({ v with __box := some b }, some (b.min.toArray, b.max.toArray))
    | _, _ => (v, none)
  let sd := if smooth.jsTruthy then
      let sd0 := ext.triangulate snap isolevel true box
      let pos := ext.laplacianSmooth sd0.position sd0.index smooth true
      { sd0 with position := pos, normal := some (ext.computeNormals pos sd0.index) }
    else ext.triangulate snap isolevel false box
  let pos := applyToVector3Array v.matrix sd.position
  let nrm := sd.normal.map (applyToVector3Array3 v.normalMatrix)
  (v, ⟨pos, sd.index, nrm, isolevel, smooth⟩)

/-- `Volume.getSurface`, lines 185-246: default the isolevel to
`getValueForSigma(2)` when `isNaN` holds of it, default `smooth` to 0 when
falsy, then run the extraction body. -/
noncomputable def getSurface (ext : ExtOracles) (v : Volume) (isolevel smooth : JsVal)
    (center : Option V3) (size : Option JsVal) : Volume × SurfaceM :=
  let (v, isoR) := resolveIsolevel v isolevel
  let smooth := if smooth.jsTruthy then smooth else JsVal.num 0
  getSurfaceCore ext v isoR smooth center size

end Volume

/-! ### Serialization -/

/-- The object produced by `Volume.toJSON`, lines 655-696 (the constant
`metadata` block is omitted). Matrices are serialized as their
column-major element arrays, the bounding box as two plain 3-element
arrays. -/
structure VolumeJSON where
  name : Option String
  path : Option String
  data : List JsVal
  nx : ℕ
  ny : ℕ
  nz : ℕ
  dataAtomindex : Option (List ℤ)
  matrix : List ℚ
  normalMatrix : List ℚ
  inverseMatrix : List ℚ
  center : List JsVal
  boundingBoxMin : List JsVal
  boundingBoxMax : List JsVal
  header : Option HeaderInfo

namespace Volume

/-- `Volume.toJSON`, lines 655-696. -/
def toJSON (v : Volume) : VolumeJSON :=
  { name := v.name, path := v.path,
    data := v.__data,
    nx := v.nx, ny := v.ny, nz := v.nz,
    dataAtomindex := v.__dataAtomindex,
    matrix := mat4ToArray v.matrix,
    normalMatrix := mat3ToArray v.normalMatrix,
    inverseMatrix := mat4ToArray v.inverseMatrix,
    center := v.center.toArray,
    boundingBoxMin := v.boundingBox.min.toArray,
    boundingBoxMax := v.boundingBox.max.toArray,
    header := v.header }

/-- `Volume.fromJSON`, lines 698-733: restore name/path, `setData` with
the serialized samples and extents, restore the three matrices and the
center from their arrays; `this.boundingBox.set(input.boundingBox.min,
input.boundingBox.max)` hands plain arrays to `Box3.set`, whose
`Vector3.copy` reads the absent `.x`/`.y`/`.z` properties, so both box
corners become `(undefined, undefined, undefined)`. -/
def fromJSON (v : Volume) (input : VolumeJSON) : Volume :=
  let v := { v with name := input.name, path := input.path }
  let v := setData v (some input.data) (some input.nx) (some input.ny) (some input.nz)
    input.dataAtomindex
  let v := { v with
    matrix := mat4FromArray input.matrix,
    normalMatrix := mat3FromArray input.normalMatrix,
    inverseMatrix := mat4FromArray input.inverseMatrix }
  let v := if input.header.isSome then { v with header := input.header } else v
  { v with
    center := V3.fromArray input.center,
    boundingBox := ⟨V3.copyFromPlainArray input.boundingBoxMin,
                    V3.copyFromPlainArray input.boundingBoxMax⟩ }

/-- The payload posted to a worker by `getSurfaceWorker`: the serialized
volume on a worker's first dispatch (`postCount === 0`), `null` after,
plus the resolved parameters. -/
structure WorkerPayload where
  vol : Option VolumeJSON
  isolevel : JsR
  smooth : JsVal
  center : Option V3
  size : Option JsVal

/-- What a `getSurfaceWorker` call did: posted a payload to a pool worker,
or fell back to synchronous extraction (environment without `Worker`, or
already inside a worker). The worker reply / error fallback arrive later
through one-shot callbacks and are outside the synchronous state change
modelled here. -/
inductive WorkerOutcome where
  | posted (p : WorkerPayload)
  | sync (s : SurfaceM)

/-- `Volume.getSurfaceWorker`, lines 248-304: resolve isolevel and smooth
exactly as `getSurface` does; in a worker-capable environment lazily
create the two-worker pool, pick the next worker round-robin and post the
parameters (with the serialized volume iff that worker has never been
posted to); otherwise run `getSurface` synchronously - the already
resolved isolevel and smooth flow into it unchanged, which is what the
extraction body receives. -/
noncomputable def getSurfaceWorker (ext : ExtOracles) (envCanWorker : Bool) (v : Volume)
    (isolevel smooth : JsVal) (center : Option V3) (size : Option JsVal) :
    Volume × WorkerOutcome :=
  let (v, isoR) := resolveIsolevel v isolevel
  let smooth := if smooth.jsTruthy then smooth else JsVal.num 0
  if envCanWorker then
    let (v, pool) := match v.workerPool with
      | some p => (v, p)
      | none =>
        let p : WorkerPoolH := ⟨false, 0, 0, false⟩
        ({ v with workerPool := some p }, p)
    let postCount := if pool.nextIdx then pool.postCountB else pool.postCountA
    let payload : WorkerPayload :=
      ⟨if postCount = 0 then some (toJSON v) else none, isoR, smooth, center, size⟩
    let pool := if pool.nextIdx then { pool with postCountB := pool.postCountB + 1, nextIdx := false }
      else { pool with postCountA := pool.postCountA + 1, nextIdx := true }
    ({ v with workerPool := some pool }, .posted payload)
  else
    let (v, s) := getSurfaceCore ext v isoR smooth center size
    (v, .sync s)

/-- `Volume.clone`, lines 626-653: construct a fresh volume over the same
canonical samples/extents/labels, copy the raw `matrix` (without running
`setMatrix`, so no derived value is recomputed), and copy the header. -/
def clone (v : Volume) : Volume :=
  let c := create v.name v.path (some v.__data) (some v.nx) (some v.ny) (some v.nz)
    v.__dataAtomindex
  let c := { c with matrix := v.matrix }
  if v.header.isSome then { c with header := v.header } else c

/-- `Volume.dispose`, lines 751-757: terminate the worker pool (if any)
and remove the volume from the registry. -/
def dispose (v : Volume) : Volume :=
  let v := { v with
    workerPool := v.workerPool.map fun (p : WorkerPoolH) => { p with terminated := true } }
  { v with log := v.log ++ [.removeObject] }

end Volume

/-! The display-oriented helpers (`getDataColor`, `getPickingDataColor`,
`getDataSize`), the trivial getters, `getSigmaForValue` and
`getTransferable` are not exercised by any claim and are not embedded. -/

/-- A volume built by the no-argument constructor `new Volume()` (as the
worker bootstrap does). -/
def defaultVol : Volume := Volume.create none none none none none none none

/-- A trivial instantiation of the external black-box routines, used to
exercise the extraction path on concrete inputs. -/
def trivialExt : ExtOracles :=
  ⟨fun _ _ _ _ => ⟨[], [], none⟩, fun p _ _ _ => p, fun p _ => p⟩

/-! ### C9: the 10^7 registry threshold -/

/-- The canonical data stored by `setData` with explicit samples. -/
lemma Volume.setData_sdata (v : Volume) (d : List JsVal) (nx ny nz : Option ℕ)
    (dai : Option (List ℤ)) :
    (Volume.setData v (some d) nx ny nz dai).__data = d := by
  simp only [Volume.setData, Volume.setDataAtomindex, Option.getD_some]
  split <;> rfl

/-- The registry events appended by `setData`. -/
lemma Volume.setData_log (v : Volume) (d : List JsVal) (nx ny nz : Option ℕ)
    (dai : Option (List ℤ)) :
    (Volume.setData v (some d) nx ny nz dai).log =
      v.log ++ (if d.length ≤ 10 ^ 7 then [RegEvent.updateObject]
        else [RegEvent.warnTooLarge, RegEvent.removeObject]) := by
  simp only [Volume.setData, Volume.setDataAtomindex, Option.getD_some]
  split <;> simp_all

/-- The registry events emitted during construction. -/
lemma Volume.create_log (name path : Option String) (d : List JsVal) (nx ny nz : Option ℕ)
    (dai : Option (List ℤ)) :
    (Volume.create name path (some d) nx ny nz dai).log =
      if d.length ≤ 10 ^ 7 then [RegEvent.updateObject, RegEvent.addObject]
      else [RegEvent.warnTooLarge, RegEvent.removeObject] := by
  simp only [Volume.create, Volume.setData_sdata]
  split <;> simp_all [Volume.setData_log]

/-- C9: a volume whose sample count exceeds `10^7` is not registered by
construction or `setData` - it is removed from the registry instead and a
warning-level diagnostic is emitted (no fatal error: the operations are
total); at or below `10^7` the registry is notified of the add (by the
constructor) and the update (by `setData`). -/
theorem c9_registry_threshold (name path : Option String) (data : List JsVal)
    (nx ny nz : Option ℕ) (dai : Option (List ℤ)) :
    (data.length > 10 ^ 7 →
      (Volume.create name path (some data) nx ny nz dai).log =
        [.warnTooLarge, .removeObject]) ∧
    (data.length ≤ 10 ^ 7 →
      (Volume.create name path (some data) nx ny nz dai).log =
        [.updateObject, .addObject]) ∧
    (∀ v : Volume, data.length > 10 ^ 7 →
      (Volume.setData v (some data) nx ny nz dai).log =
        v.log ++ [.warnTooLarge, .removeObject]) ∧
    (∀ v : Volume, data.length ≤ 10 ^ 7 →
      (Volume.setData v (some data) nx ny nz dai).log = v.log ++ [.updateObject]) := by
  refine ⟨fun h => ?_, fun h => ?_, fun v h => ?_, fun v h => ?_⟩
  · rw [Volume.create_log, if_neg (by omega)]
  · rw [Volume.create_log, if_pos h]
  · rw [Volume.setData_log, if_neg (by omega)]
  · rw [Volume.setData_log, if_pos h]

/-- Witness for C9 at a concrete oversized sample array
(`10^7 + 1` zeros) and a concrete small one. -/
theorem c9_registry_threshold_witness :
    ((List.replicate (10 ^ 7 + 1) (JsVal.num 0)).length > 10 ^ 7 ∧
      (Volume.create none none (some (List.replicate (10 ^ 7 + 1) (JsVal.num 0)))
          none none none none).log = [.warnTooLarge, .removeObject]) ∧
    ([JsVal.num 0].length ≤ 10 ^ 7 ∧
      (Volume.create none none (some [JsVal.num 0]) none none none none).log =
        [.updateObject, .addObject]) :=
  ⟨⟨by rw [List.length_replicate]; norm_num,
    (c9_registry_threshold none none _ none none none none).1
      (by rw [List.length_replicate]; norm_num)⟩,
   ⟨by norm_num,
    (c9_registry_threshold none none _ none none none none).2.1 (by norm_num)⟩⟩

/-! ### C10: absent samples default to `[0]` with well-defined statistics -/

/-- C10: `setData` with the samples array (and the extents) absent makes
the canonical data the single-element array `[0]` and each grid extent 1,
and on the resulting default volume all four statistics are a well-defined
0 (no division by a zero sample count: `n = 1`). -/
theorem c10_absent_data_defaults (v : Volume) :
    (Volume.setData v none none none none none).__data = [JsVal.num 0] ∧
    (Volume.setData v none none none none none).data = [JsVal.num 0] ∧
    (Volume.setData v none none none none none).nx = 1 ∧
    (Volume.setData v none none none none none).ny = 1 ∧
    (Volume.setData v none none none none none).nz = 1 ∧
    (Volume.getDataMin (Volume.setData v none none none none none)).2 = JsVal.num 0 ∧
    (Volume.getDataMax (Volume.setData v none none none none none)).2 = JsVal.num 0 ∧
    (Volume.getDataMean (Volume.setData v none none none none none)).2 = JsVal.num 0 ∧
    (Volume.getDataRms (Volume.setData v none none none none none)).2 = JsR.num 0 := by
  have hset : ∀ w : Volume, Volume.setData w none none none none none =
      Volume.setData w none none none none none := fun _ => rfl
  constructor
  · simp [Volume.setData, Volume.setDataAtomindex]
  constructor
  · simp [Volume.setData, Volume.setDataAtomindex]
  constructor
  · simp [Volume.setData, Volume.setDataAtomindex, Volume.natOr1]
  constructor
  · simp [Volume.setData, Volume.setDataAtomindex, Volume.natOr1]
  constructor
  · simp [Volume.setData, Volume.setDataAtomindex, Volume.natOr1]
  constructor
  · simp [Volume.setData, Volume.setDataAtomindex, Volume.getDataMin, JsVal.jsMin]
  constructor
  · simp [Volume.setData, Volume.setDataAtomindex, Volume.getDataMax, JsVal.jsMax]
  constructor
  · simp [Volume.setData, Volume.setDataAtomindex, Volume.getDataMean, JsVal.jsAdd,
      JsVal.jsDiv]
  · simp [Volume.setData, Volume.setDataAtomindex, Volume.getDataRms, JsVal.jsAdd,
      JsVal.jsMul, JsVal.jsDiv, JsR.jsSqrt]

/-! ### C2: `setData` does not terminate the worker pool (code bug) -/

/-- A small volume for the worker-session scenario. -/
def c2Vol0 : Volume := Volume.create none none (some [JsVal.num 0]) none none none none

/-- C2 (code bug): `setData` never touches `workerPool` - the
`if (this.worker) this.worker.terminate()` guard tests a property nothing
in the file ever assigns (`getSurfaceWorker` stores the pool in
`this.workerPool`). Concretely: after starting a worker session in a
worker-capable environment and then replacing the data, the pool handle
is still present and not terminated, and `worker` is still absent. -/
theorem c2_setData_leaves_worker_pool_alive :
    (∀ (v : Volume) (d : Option (List JsVal)) (nx ny nz : Option ℕ)
      (dai : Option (List ℤ)),
      (Volume.setData v d nx ny nz dai).workerPool = v.workerPool) ∧
    (Volume.setData
        (Volume.getSurfaceWorker trivialExt true c2Vol0 (.num 0) .undef none none).1
        none none none none none).workerPool = some ⟨false, 1, 0, true⟩ ∧
    (Volume.setData
        (Volume.getSurfaceWorker trivialExt true c2Vol0 (.num 0) .undef none none).1
        none none none none none).worker = none := by
  refine ⟨fun v d nx ny nz dai => ?_, rfl, rfl⟩
  simp only [Volume.setData, Volume.setDataAtomindex]
  split <;> rfl

/-! ### C3: `setData` leaves a stale `dataPosition`, the next
`filterData` crashes (code bug) -/

/-- A 1×1×1 volume whose grid positions get cached by a first filter. -/
def c3Vol0 : Volume :=
  Volume.create none none (some [JsVal.num 1]) (some 1) (some 1) (some 1) none

/-- The state after a first (general-path) `filterData` call. -/
def c3AfterFilter : Volume := (Volume.filterData c3Vol0 (.num 0) (.num 2) false).volD c3Vol0

/-- The state after replacing the data: `__dataPosition` was deleted but
the `dataPosition` property survives. -/
def c3AfterSetData : Volume :=
  Volume.setData c3AfterFilter (some [JsVal.num 5]) (some 1) (some 1) (some 1) none

/-- C3 (code bug): after `filterData` has cached grid positions, a
`setData` deletes `__dataPosition` but not `dataPosition`; the next
`filterData` therefore skips `makeDataPosition` (its guard tests
`dataPosition`) and scans with `dataPosition = undefined`, throwing a
`TypeError` at the first retained sample instead of recomputing the grid
positions for the new data. -/
theorem c3_filter_after_setData_crashes :
    (Volume.filterData c3Vol0 (.num 0) (.num 2) false).branch? = some .general ∧
    c3AfterSetData.dataPosition.isSome = true ∧
    c3AfterSetData.__dataPosition = none ∧
    Volume.filterData c3AfterSetData (.num 0) (.num 10) false = .crash := by
  refine ⟨rfl, rfl, rfl, rfl⟩

/-! ### C5: isolevel defaulting -/

/-- The isolevel recorded in the surface metadata is the resolved one,
whatever the extraction body does. -/
lemma Volume.getSurfaceCore_isolevel (ext : ExtOracles) (v : Volume) (isoR : JsR)
    (smooth : JsVal) (center : Option V3) (size : Option JsVal) :
    (Volume.getSurfaceCore ext v isoR smooth center size).2.isolevel = isoR := by
  unfold Volume.getSurfaceCore
  cases hmc : v.mc <;> cases center <;> cases size <;> rfl

/-- Computing (and memoizing) the mean does not change the value the rms
getter returns. -/
lemma Volume.getDataRms_after_mean (v : Volume) :
    (Volume.getDataRms (Volume.getDataMean v).1).2 = (Volume.getDataRms v).2 := by
  unfold Volume.getDataMean Volume.getDataRms
  cases hm : v.__dataMean <;> cases hr : v.__dataRms <;> simp [hm, hr]

/-- C5 counterexample: `Infinity` is not a finite number, yet `getSurface`
does not replace it by `valueForSigma(2)` - the guard is `isNaN`, which is
false for `Infinity`, so the infinite isolevel is used and recorded as-is
(on the default volume `valueForSigma(2)` is the finite 0). -/
theorem c5_infinite_isolevel_not_defaulted :
    (Volume.getSurface trivialExt defaultVol .posInf .undef none none).2.isolevel =
      JsR.posInf ∧
    (Volume.getValueForSigma defaultVol (.num 2)).2 = JsR.num 0 ∧
    (Volume.getSurface trivialExt defaultVol .posInf .undef none none).2.isolevel ≠
      (Volume.getValueForSigma defaultVol (.num 2)).2 := by
  have h1 : (Volume.getSurface trivialExt defaultVol .posInf .undef none none).2.isolevel =
      JsR.posInf := rfl
  have h2 : (Volume.getValueForSigma defaultVol (.num 2)).2 = JsR.num 0 := by
    norm_num [Volume.getValueForSigma, Volume.getDataMean, Volume.getDataRms,
      show defaultVol.__dataMean = none from rfl, show defaultVol.__dataRms = none from rfl,
      show defaultVol.__data = [JsVal.num 0] from rfl,
      JsVal.jsAdd, JsVal.jsMul, JsVal.jsDiv, JsR.ofVal, JsR.add, JsR.mul, JsR.jsSqrt]
  refine ⟨h1, h2, ?_⟩
  rw [h1, h2]
  intro h
  exact JsR.noConfusion h

/-- C5 (amended): the default applies exactly when `isNaN(isolevel)`
holds - i.e. when the isolevel is `NaN` or absent, not for every
non-finite number (an infinite isolevel is kept). In that case the
isolevel used and recorded by `getSurface`, and by `getSurfaceWorker` both
in the parameters it posts and in its synchronous fallback, is
`getValueForSigma(2)`, which is `mean + 2 * rms` of the current samples. -/
theorem c5_nan_isolevel_defaulted (ext : ExtOracles) (env : Bool) (v : Volume)
    (isolevel smooth : JsVal) (center : Option V3) (size : Option JsVal)
    (h : isolevel.jsIsNaN = true) :
    (Volume.getSurface ext v isolevel smooth center size).2.isolevel =
      (Volume.getValueForSigma v (.num 2)).2 ∧
    (match (Volume.getSurfaceWorker ext env v isolevel smooth center size).2 with
     | .posted p => p.isolevel = (Volume.getValueForSigma v (.num 2)).2
     | .sync s => s.isolevel = (Volume.getValueForSigma v (.num 2)).2) ∧
    (Volume.getValueForSigma v (.num 2)).2 =
      (JsR.ofVal (Volume.getDataMean v).2).add
        ((JsR.ofVal (.num 2)).mul (Volume.getDataRms v).2) := by
  rcases hp : Volume.getValueForSigma v (.num 2) with ⟨v1, r⟩
  have hres : Volume.resolveIsolevel v isolevel = (v1, r) := by
    simp [Volume.resolveIsolevel, h, hp]
  refine ⟨?_, ?_, ?_⟩
  · simp [Volume.getSurface, hres, Volume.getSurfaceCore_isolevel, hp]
  · cases env
    · simp [Volume.getSurfaceWorker, hres, hp, Volume.getSurfaceCore_isolevel]
    · simp only [Volume.getSurfaceWorker, hres, hp]
      cases hpool : v1.workerPool <;> simp [hpool]
  · rcases hm : Volume.getDataMean v with ⟨vm, mean⟩
    rcases hr : Volume.getDataRms vm with ⟨vr, rms⟩
    have : (Volume.getDataRms v).2 = rms := by
      rw [← Volume.getDataRms_after_mean v, hm, hr]
    rw [← hp, this]
    simp [Volume.getValueForSigma, hm, hr]

/-! ### C6: the skip condition of `filterData` -/

/-- Strict equality holds exactly between equal non-NaN values. -/
lemma JsVal.jsSEq_eq_true_iff (a b : JsVal) : JsVal.jsSEq a b = true ↔ a = b ∧ a ≠ .nan := by
  cases a <;> cases b <;> simp [JsVal.jsSEq]

/-- Strict equality is reflexive away from NaN. -/
lemma JsVal.jsSEq_self (a : JsVal) (h : a ≠ .nan) : JsVal.jsSEq a a = true := by
  cases a <;> simp_all [JsVal.jsSEq]

/-- The resolved `minValue` is never NaN (NaN is mapped to a header value
or `-Infinity`). -/
lemma filterMinResolved_ne_nan (hd : Option HeaderInfo) (a : JsVal) :
    Volume.filterMinResolved hd a ≠ .nan := by
  unfold Volume.filterMinResolved
  rcases hd with _ | hh <;> cases a <;> simp [JsVal.jsIsNaN]

@[simp] lemma makeDataPosition_minValue (v : Volume) :
    (Volume.makeDataPosition v).__minValue = v.__minValue := rfl

@[simp] lemma makeDataPosition_maxValue (v : Volume) :
    (Volume.makeDataPosition v).__maxValue = v.__maxValue := rfl

@[simp] lemma makeDataPosition_outside (v : Volume) :
    (Volume.makeDataPosition v).__outside = v.__outside := rfl

@[simp] lemma makeDataPosition_header (v : Volume) :
    (Volume.makeDataPosition v).header = v.header := rfl

@[simp] lemma makeDataPosition_dataPosition_isSome (v : Volume) :
    (Volume.makeDataPosition v).dataPosition.isSome = true := rfl

@[simp] lemma makeDataPosition_sdataPosition_isSome (v : Volume) :
    (Volume.makeDataPosition v).__dataPosition.isSome = true := rfl

@[simp] lemma ensureFilterBuffers_header (v : Volume) (n : ℕ) :
    (Volume.ensureFilterBuffers v n).header = v.header := by
  unfold Volume.ensureFilterBuffers
  split <;> rfl

/-- The scanning branch never reports a skip. -/
lemma filterGeneral_not_skipped (v : Volume) (dp : Option (List JsVal)) (data : List JsVal)
    (mn mx : JsVal) (o : Bool) :
    (Volume.filterGeneral v dp data mn mx o).branch? ≠ some .skipped := by
  unfold Volume.filterGeneral
  rcases hl : Volume.filterLoop o mn mx dp data 0
      ((Volume.ensureFilterBuffers v data.length).__dataPositionBuffer.getD [])
      ((Volume.ensureFilterBuffers v data.length).__dataBuffer.getD []) 0
    with _ | ⟨⟨bp, bd, j⟩⟩ <;>
    simp [hl, Volume.FilterResult.branch?]

/-- `filterData` skips recomputation exactly when the resolved triple
passes the JS equality test against the stored one - which, when the
resolved `maxValue` is not NaN, is exactly when the triples are equal. -/
lemma filterData_skipped_iff (v : Volume) (a b : JsVal) (o : Bool)
    (hM : Volume.filterMaxResolved b ≠ .nan) :
    (Volume.filterData v a b o).branch? = some .skipped ↔
      (v.__minValue = Volume.filterMinResolved v.header a ∧
       v.__maxValue = Volume.filterMaxResolved b ∧ v.__outside = some o) := by
  unfold Volume.filterData
  simp only [apply_ite Volume.__minValue, apply_ite Volume.__maxValue,
    apply_ite Volume.__outside, makeDataPosition_minValue, makeDataPosition_maxValue,
    makeDataPosition_outside, ite_self]
  by_cases hc : ((Volume.filterMinResolved v.header a).jsSEq v.__minValue &&
      (Volume.filterMaxResolved b).jsLooseEq v.__maxValue && (v.__outside == some o)) = true
  · rw [if_pos hc]
    simp only [Volume.FilterResult.branch?, Option.some.injEq, true_iff]
    simp only [Bool.and_eq_true, JsVal.jsLooseEq, beq_iff_eq] at hc
    obtain ⟨⟨h1, h2⟩, h3⟩ := hc
    rw [JsVal.jsSEq_eq_true_iff] at h1 h2
    exact ⟨h1.1.symm, h2.1.symm, h3⟩
  · rw [if_neg hc]
    constructor
    · intro habs
      exfalso
      split at habs
      · simp [Volume.FilterResult.branch?] at habs
      · exact filterGeneral_not_skipped _ _ _ _ _ _ habs
    · rintro ⟨e1, e2, e3⟩
      exfalso
      apply hc
      simp only [Bool.and_eq_true, JsVal.jsLooseEq, beq_iff_eq]
      refine ⟨⟨?_, ?_⟩, e3⟩
      · rw [← e1]
        exact JsVal.jsSEq_self _ (by rw [e1]; exact filterMinResolved_ne_nan v.header a)
      · rw [← e2]
        exact JsVal.jsSEq_self _ (by rw [e2]; exact hM)

/-- A successful `filterData` stores the resolved triple (or was itself a
skip because the stored triple already matched) and leaves grid positions
cached, so an identical second call is a pure skip that returns the state
unchanged. `hN` excludes the corrupt state of the C3 bug (a stale
`dataPosition` alongside a deleted `__dataPosition`). -/
lemma filterData_idem (v : Volume) (a b : JsVal) (o : Bool)
    (hM : Volume.filterMaxResolved b ≠ .nan)
    (hN : v.__dataPosition.isSome = true ∨ v.dataPosition.isNone = true) :
    ∀ w br, Volume.filterData v a b o = .ok w br →
      Volume.filterData w a b o = .ok w .skipped := by
  intro w br hw
  unfold Volume.filterData at hw
  set v1 := (if v.dataPosition.isNone then Volume.makeDataPosition v else v) with hv1
  have hv1header : v1.header = v.header := by
    rw [hv1]; split <;> simp
  have hv1min : v1.__minValue = v.__minValue := by
    rw [hv1]; split <;> simp
  have hv1max : v1.__maxValue = v.__maxValue := by
    rw [hv1]; split <;> simp
  have hv1out : v1.__outside = v.__outside := by
    rw [hv1]; split <;> simp
  have hv1dp : v1.dataPosition.isSome = true := by
    rw [hv1]
    split
    · simp
    · rename_i hcnd
      cases hdp : v.dataPosition with
      | none => rw [hdp] at hcnd; simp at hcnd
      | some x => rfl
  have hv1sdp : v1.__dataPosition.isSome = true := by
    rw [hv1]
    split
    · simp
    · rename_i hcnd
      rcases hN with h | h
      · exact h
      · exact absurd h hcnd
  have key : w.header = v.header ∧
      w.__minValue = Volume.filterMinResolved v.header a ∧
      w.__maxValue = Volume.filterMaxResolved b ∧
      w.__outside = some o ∧ w.dataPosition.isSome = true := by
    by_cases hc : ((Volume.filterMinResolved v.header a).jsSEq v1.__minValue &&
        (Volume.filterMaxResolved b).jsLooseEq v1.__maxValue &&
        (v1.__outside == some o)) = true
    · rw [if_pos hc] at hw
      obtain ⟨rfl, -⟩ := Volume.FilterResult.ok.inj hw
      simp only [Bool.and_eq_true, JsVal.jsLooseEq, beq_iff_eq, hv1min, hv1max,
        hv1out] at hc
      obtain ⟨⟨h1, h2⟩, h3⟩ := hc
      rw [JsVal.jsSEq_eq_true_iff] at h1 h2
      exact ⟨hv1header, by rw [hv1min]; exact h1.1.symm, by rw [hv1max]; exact h2.1.symm,
        by rw [hv1out]; exact h3, hv1dp⟩
    · rw [if_neg hc] at hw
      by_cases hfast : (Volume.filterMinResolved v.header a = JsVal.negInf ∧
          Volume.filterMaxResolved b = JsVal.posInf)
      · rw [if_pos hfast] at hw
        obtain ⟨rfl, -⟩ := Volume.FilterResult.ok.inj hw
        exact ⟨hv1header, rfl, rfl, rfl, hv1sdp⟩
      · rw [if_neg hfast] at hw
        unfold Volume.filterGeneral at hw
        simp only [] at hw
        rcases hl : Volume.filterLoop o (Volume.filterMinResolved v.header a)
            (Volume.filterMaxResolved b) v1.__dataPosition v1.__data 0
            ((Volume.ensureFilterBuffers v1 v1.__data.length).__dataPositionBuffer.getD [])
            ((Volume.ensureFilterBuffers v1 v1.__data.length).__dataBuffer.getD []) 0
          with _ | ⟨⟨bp, bd, j⟩⟩ <;> rw [hl] at hw
        · cases hw
        · obtain ⟨rfl, -⟩ := Volume.FilterResult.ok.inj hw
          exact ⟨by simp [hv1header], rfl, rfl, rfl, rfl⟩
  obtain ⟨f1, f2, f3, f4, f5⟩ := key
  have h5 : w.dataPosition.isNone = false := by
    rcases Option.isSome_iff_exists.mp f5 with ⟨x, hx⟩
    rw [hx]
    rfl
  unfold Volume.filterData
  rw [f1, h5]
  simp only [if_neg Bool.false_ne_true]
  rw [if_pos]
  simp only [Bool.and_eq_true, JsVal.jsLooseEq, beq_iff_eq]
  refine ⟨⟨?_, ?_⟩, ?_⟩
  · rw [f2]
    exact JsVal.jsSEq_self _ (filterMinResolved_ne_nan v.header a)
  · rw [f3]
    exact JsVal.jsSEq_self _ hM
  · rw [f4]

/-- A 1-sample volume for the NaN-maxValue scenario. -/
def c6Vol0 : Volume := Volume.create none none (some [JsVal.num 0]) none none none none

/-- The state after `filterData(0, NaN, false)`. -/
def c6S1 : Volume := (Volume.filterData c6Vol0 (.num 0) .nan false).volD c6Vol0

/-- C6 counterexample: after `filterData(0, NaN, false)` the stored triple
is exactly `(0, NaN, false)`; the identical second call requests the same
resolved triple, yet it is not skipped - the scan runs again (branch
`general`), because `NaN == NaN` is false in the skip test. -/
theorem c6_nan_max_recomputes :
    Volume.filterMinResolved c6S1.header (.num 0) = .num 0 ∧
    Volume.filterMaxResolved .nan = .nan ∧
    c6S1.__minValue = .num 0 ∧ c6S1.__maxValue = .nan ∧ c6S1.__outside = some false ∧
    (Volume.filterData c6S1 (.num 0) .nan false).branch? = some .general :=
  ⟨rfl, rfl, rfl, rfl, rfl, rfl⟩

/-- C6 (amended): provided the resolved `maxValue` is not `NaN` (a `NaN`
`maxValue` survives defaulting but never compares equal, so such calls
always recompute), recomputation is skipped iff the resolved
`(minValue, maxValue, outside)` triple equals the last-applied one; and -
away from the corrupt stale-`dataPosition` state of the C3 bug - a second
identical call after any successful call is a skip that returns the state
unchanged. -/
theorem c6_skip_iff_triple_matches (v : Volume) (minV maxV : JsVal) (outside : Bool)
    (hM : Volume.filterMaxResolved maxV ≠ .nan)
    (hN : v.__dataPosition.isSome = true ∨ v.dataPosition.isNone = true) :
    ((Volume.filterData v minV maxV outside).branch? = some .skipped ↔
      (v.__minValue = Volume.filterMinResolved v.header minV ∧
       v.__maxValue = Volume.filterMaxResolved maxV ∧ v.__outside = some outside)) ∧
    ((Volume.filterData v minV maxV outside).branch?.isSome = true →
      Volume.filterData ((Volume.filterData v minV maxV outside).volD v) minV maxV outside =
        .ok ((Volume.filterData v minV maxV outside).volD v) .skipped) := by
  refine ⟨filterData_skipped_iff v minV maxV outside hM, fun hsome => ?_⟩
  rcases hr : Volume.filterData v minV maxV outside with _ | ⟨w, br⟩
  · rw [hr] at hsome
    cases hsome
  · simp only [Volume.FilterResult.volD]
    exact filterData_idem v minV maxV outside hM hN w br hr

/-- Witness for C6 (amended) on the default volume with the finite filter
`(0, 1, false)`. -/
theorem c6_skip_iff_triple_matches_witness :
    Volume.filterMaxResolved (.num 1) ≠ .nan ∧
    (defaultVol.__dataPosition.isSome = true ∨ defaultVol.dataPosition.isNone = true) ∧
    (((Volume.filterData defaultVol (.num 0) (.num 1) false).branch? = some .skipped ↔
      (defaultVol.__minValue = Volume.filterMinResolved defaultVol.header (.num 0) ∧
       defaultVol.__maxValue = Volume.filterMaxResolved (.num 1) ∧
       defaultVol.__outside = some false)) ∧
    ((Volume.filterData defaultVol (.num 0) (.num 1) false).branch?.isSome = true →
      Volume.filterData
          ((Volume.filterData defaultVol (.num 0) (.num 1) false).volD defaultVol)
          (.num 0) (.num 1) false =
        .ok ((Volume.filterData defaultVol (.num 0) (.num 1) false).volD defaultVol)
          .skipped)) :=
  ⟨by decide, by decide,
   c6_skip_iff_triple_matches defaultVol (.num 0) (.num 1) false (by decide) (by decide)⟩

/-! ### C1: the serialization round-trip -/

/-- `Matrix4.fromArray ∘ Matrix4.toArray` is the identity (the
serialization of the transform is lossless; float round-tripping is
idealised as exact). -/
lemma mat4FromArray_toArray (m : Mat4) : mat4FromArray (mat4ToArray m) = m := by
  ext i j
  fin_cases i <;> fin_cases j <;> rfl

/-- `Matrix3.fromArray ∘ Matrix3.toArray` is the identity. -/
lemma mat3FromArray_toArray (m : Mat3) : mat3FromArray (mat3ToArray m) = m := by
  ext i j
  fin_cases i <;> fin_cases j <;> rfl

/-- `Vector3.fromArray ∘ Vector3.toArray` is the identity. -/
lemma V3.fromArray_toArray (p : V3) : V3.fromArray p.toArray = p := rfl

/-- A concrete serializable volume (2×2×2, eight distinct samples). -/
def c1Vol : Volume :=
  Volume.create (some "vol") (some "path")
    (some [JsVal.num 1, JsVal.num 2, JsVal.num 3, JsVal.num 4,
           JsVal.num 5, JsVal.num 6, JsVal.num 7, JsVal.num 8])
    (some 2) (some 2) (some 2) none

/-- `fromJSON(toJSON(c1Vol))` applied to a fresh volume, as the worker
bootstrap does. -/
def c1RoundTrip : Volume := Volume.fromJSON defaultVol (Volume.toJSON c1Vol)

/-- C1 (code bug): the round-trip reproduces the samples (bit-identical),
the extents, the labels, name/path, all three matrices and the center
exactly - but never the bounding box: `fromJSON` hands the serialized
plain arrays to `Box3.set`, whose `Vector3.copy` reads the absent
`.x`/`.y`/`.z` properties, so every deserialized volume has the bounding
box `(undefined,...) - (undefined,...)`, which differs from the original
(here the constructor's empty-box sentinel, and a fortiori from any box
computed by `setMatrix`). -/
theorem c1_roundtrip_corrupts_bounding_box :
    (∀ (v : Volume) (input : VolumeJSON),
      (Volume.fromJSON v input).boundingBox =
        ⟨⟨.undef, .undef, .undef⟩, ⟨.undef, .undef, .undef⟩⟩) ∧
    c1RoundTrip.__data = c1Vol.__data ∧
    c1RoundTrip.data = c1Vol.__data ∧
    c1RoundTrip.nx = c1Vol.nx ∧ c1RoundTrip.ny = c1Vol.ny ∧ c1RoundTrip.nz = c1Vol.nz ∧
    c1RoundTrip.dataAtomindex = c1Vol.__dataAtomindex ∧
    c1RoundTrip.name = c1Vol.name ∧ c1RoundTrip.path = c1Vol.path ∧
    c1RoundTrip.matrix = c1Vol.matrix ∧
    c1RoundTrip.normalMatrix = c1Vol.normalMatrix ∧
    c1RoundTrip.inverseMatrix = c1Vol.inverseMatrix ∧
    c1RoundTrip.center = c1Vol.center ∧
    c1Vol.boundingBox = Box3.empty ∧
    c1RoundTrip.boundingBox ≠ c1Vol.boundingBox := by
  refine ⟨fun v input => rfl, rfl, rfl, rfl, rfl, rfl, rfl, rfl, rfl,
    mat4FromArray_toArray c1Vol.matrix, mat3FromArray_toArray c1Vol.normalMatrix,
    mat4FromArray_toArray c1Vol.inverseMatrix, V3.fromArray_toArray c1Vol.center,
    rfl, ?_⟩
  have h1 : c1RoundTrip.boundingBox =
      ⟨⟨.undef, .undef, .undef⟩, ⟨.undef, .undef, .undef⟩⟩ := rfl
  have h2 : c1Vol.boundingBox = Box3.empty := rfl
  rw [h1, h2]
  decide

/-! ### C8: the derived matrices of `setMatrix` -/

/-- A rational triple as a `Fin 3`-indexed row/column vector. -/
def tripleToVec (p : ℚ × ℚ × ℚ) : Fin 3 → ℚ := ![p.1, p.2.1, p.2.2]

/-- The cross-product assembly of `setMatrix` equals the transpose of the
adjugate (the cofactor matrix) of the linear part. -/
lemma normalFromMatrix_eq_adjugate (m : Mat4) :
    normalFromMatrix m = (Matrix.adjugate (linPart m)).transpose := by
  rw [linPart, Matrix.adjugate_fin_three_of]
  ext i j
  fin_cases i <;> fin_cases j <;>
    simp [normalFromMatrix, cross3, colVec, Matrix.transpose_apply] <;> ring

/-- `getInverse` is a left inverse on nonsingular matrices. -/
lemma mat4GetInverse_mul (m : Mat4) (h : m.det ≠ 0) : mat4GetInverse m * m = 1 := by
  rw [mat4GetInverse, if_neg h, Matrix.smul_mul, Matrix.adjugate_mul, smul_smul,
    inv_mul_cancel₀ h, one_smul]

/-- `getInverse` is a right inverse on nonsingular matrices. -/
lemma mul_mat4GetInverse (m : Mat4) (h : m.det ≠ 0) : m * mat4GetInverse m = 1 := by
  rw [mat4GetInverse, if_neg h, Matrix.mul_smul, Matrix.mul_adjugate, smul_smul,
    inv_mul_cancel₀ h, one_smul]

/-- Row 0 of the normal matrix is `r1 × r2` of the linear part's rows. -/
lemma normalFromMatrix_row0 (m : Mat4) :
    normalFromMatrix m 0 = tripleToVec (cross3 (rowVec m 1) (rowVec m 2)) := by
  funext j
  fin_cases j <;> simp [normalFromMatrix, tripleToVec, cross3, colVec, rowVec] <;> ring

/-- Row 1 of the normal matrix is `r2 × r0`. -/
lemma normalFromMatrix_row1 (m : Mat4) :
    normalFromMatrix m 1 = tripleToVec (cross3 (rowVec m 2) (rowVec m 0)) := by
  funext j
  fin_cases j <;> simp [normalFromMatrix, tripleToVec, cross3, colVec, rowVec] <;> ring

/-- Row 2 of the normal matrix is `r0 × r1`. -/
lemma normalFromMatrix_row2 (m : Mat4) :
    normalFromMatrix m 2 = tripleToVec (cross3 (rowVec m 0) (rowVec m 1)) := by
  funext j
  fin_cases j <;> simp [normalFromMatrix, tripleToVec, cross3, colVec, rowVec] <;> ring

/-- C8: after `setMatrix(m)`, `normalMatrix` is the transpose of the
adjugate (i.e. the cofactor matrix) of the upper-left 3×3 linear part of
`m`, whose rows are the cross products `r1×r2`, `r2×r0`, `r0×r1` of the
linear part's row vectors; and `inverseMatrix` is the exact two-sided
inverse of `m` (whenever `m` is invertible; a singular `m` gets the
identity, per `THREE.Matrix4.getInverse`). -/
theorem c8_normal_and_inverse_matrices (v : Volume) (m : Mat4) (h : m.det ≠ 0) :
    (Volume.setMatrix v m).normalMatrix = (Matrix.adjugate (linPart m)).transpose ∧
    ((Volume.setMatrix v m).normalMatrix 0 = tripleToVec (cross3 (rowVec m 1) (rowVec m 2)) ∧
     (Volume.setMatrix v m).normalMatrix 1 = tripleToVec (cross3 (rowVec m 2) (rowVec m 0)) ∧
     (Volume.setMatrix v m).normalMatrix 2 = tripleToVec (cross3 (rowVec m 0) (rowVec m 1))) ∧
    (Volume.setMatrix v m).inverseMatrix * m = 1 ∧
    m * (Volume.setMatrix v m).inverseMatrix = 1 := by
  have hn : (Volume.setMatrix v m).normalMatrix = normalFromMatrix m := rfl
  have hi : (Volume.setMatrix v m).inverseMatrix = mat4GetInverse m := rfl
  rw [hn, hi]
  exact ⟨normalFromMatrix_eq_adjugate m,
    ⟨normalFromMatrix_row0 m, normalFromMatrix_row1 m, normalFromMatrix_row2 m⟩,
    mat4GetInverse_mul m h, mul_mat4GetInverse m h⟩

/-- Witness for C8 at the identity matrix (which is nonsingular). -/
theorem c8_normal_and_inverse_matrices_witness :
    (1 : Mat4).det ≠ 0 ∧
    ((Volume.setMatrix defaultVol 1).normalMatrix =
        (Matrix.adjugate (linPart 1)).transpose ∧
    ((Volume.setMatrix defaultVol 1).normalMatrix 0 =
        tripleToVec (cross3 (rowVec 1 1) (rowVec 1 2)) ∧
     (Volume.setMatrix defaultVol 1).normalMatrix 1 =
        tripleToVec (cross3 (rowVec 1 2) (rowVec 1 0)) ∧
     (Volume.setMatrix defaultVol 1).normalMatrix 2 =
        tripleToVec (cross3 (rowVec 1 0) (rowVec 1 1))) ∧
    (Volume.setMatrix defaultVol 1).inverseMatrix * 1 = 1 ∧
    (1 : Mat4) * (Volume.setMatrix defaultVol 1).inverseMatrix = 1) :=
  ⟨by simp, c8_normal_and_inverse_matrices defaultVol 1 (by simp)⟩

/-! ### C4: consistency of the derived values

The spec-side reference for the bounding box and center: transform the 8
grid corners `(0|nx-1, 0|ny-1, 0|nz-1)`, take their axis-aligned bounding
box, then its centroid. -/

/-- The componentwise extremes of the 8 transformed corner points of the
box `[lo, hi]` (corner order as in `Box3`). -/
def cornerExtremes (m : Mat4) (lo hi : ℚ × ℚ × ℚ) : (ℚ × ℚ × ℚ) × (ℚ × ℚ × ℚ) :=
  let p0 := mat4ApplyQ m (lo.1, lo.2.1, lo.2.2)
  let p1 := mat4ApplyQ m (lo.1, lo.2.1, hi.2.2)
  let p2 := mat4ApplyQ m (lo.1, hi.2.1, lo.2.2)
  let p3 := mat4ApplyQ m (lo.1, hi.2.1, hi.2.2)
  let p4 := mat4ApplyQ m (hi.1, lo.2.1, lo.2.2)
  let p5 := mat4ApplyQ m (hi.1, lo.2.1, hi.2.2)
  let p6 := mat4ApplyQ m (hi.1, hi.2.1, lo.2.2)
  let p7 := mat4ApplyQ m (hi.1, hi.2.1, hi.2.2)
  ((min (min (min (min (min (min (min p0.1 p1.1) p2.1) p3.1) p4.1) p5.1) p6.1) p7.1,
    min (min (min (min (min (min (min p0.2.1 p1.2.1) p2.2.1) p3.2.1) p4.2.1) p5.2.1) p6.2.1) p7.2.1,
    min (min (min (min (min (min (min p0.2.2 p1.2.2) p2.2.2) p3.2.2) p4.2.2) p5.2.2) p6.2.2) p7.2.2),
   (max (max (max (max (max (max (max p0.1 p1.1) p2.1) p3.1) p4.1) p5.1) p6.1) p7.1,
    max (max (max (max (max (max (max p0.2.1 p1.2.1) p2.2.1) p3.2.1) p4.2.1) p5.2.1) p6.2.1) p7.2.1,
    max (max (max (max (max (max (max p0.2.2 p1.2.2) p2.2.2) p3.2.2) p4.2.2) p5.2.2) p6.2.2) p7.2.2))

/-- The axis-aligned bounding box of the 8 transformed corners. -/
def aabbOfCorners (m : Mat4) (lo hi : ℚ × ℚ × ℚ) : Box3 :=
  let e := cornerExtremes m lo hi
  ⟨⟨.num e.1.1, .num e.1.2.1, .num e.1.2.2⟩, ⟨.num e.2.1, .num e.2.2.1, .num e.2.2.2⟩⟩

/-- The spec's world-space bounding box: the AABB of the 8 transformed
grid corners `(0|nx-1, 0|ny-1, 0|nz-1)`. -/
def specBox (m : Mat4) (nx ny nz : ℕ) : Box3 :=
  aabbOfCorners m (0, 0, 0) ((nx : ℚ) - 1, (ny : ℚ) - 1, (nz : ℚ) - 1)

/-- The spec's center: the centroid (midpoint) of that box. -/
def specCenter (m : Mat4) (nx ny nz : ℕ) : V3 :=
  let e := cornerExtremes m (0, 0, 0) ((nx : ℚ) - 1, (ny : ℚ) - 1, (nz : ℚ) - 1)
  ⟨.num ((e.1.1 + e.2.1) / 2), .num ((e.1.2.1 + e.2.2.1) / 2), .num ((e.1.2.2 + e.2.2.2) / 2)⟩

@[simp] theorem jsMin_posInf_num (b : ℚ) : JsVal.jsMin .posInf (.num b) = .num b := rfl

@[simp] theorem jsMax_negInf_num (b : ℚ) : JsVal.jsMax .negInf (.num b) = .num b := rfl

/-- The `expandByPoint` chain of `setMatrix` produces the grid AABB
`[min(a,0), max(a,0)] × ...` (duplicate corner coordinates collapse). -/
lemma expandChain (a b c : ℚ) :
    ((((((((Box3.empty.expandByPoint ⟨.num a, .num b, .num c⟩).expandByPoint
      ⟨.num a, .num b, .num 0⟩).expandByPoint ⟨.num a, .num 0, .num c⟩).expandByPoint
      ⟨.num a, .num 0, .num 0⟩).expandByPoint ⟨.num 0, .num b, .num c⟩).expandByPoint
      ⟨.num 0, .num 0, .num c⟩).expandByPoint ⟨.num 0, .num b, .num 0⟩).expandByPoint
      ⟨.num 0, .num 0, .num 0⟩) =
    ⟨⟨.num (min a 0), .num (min b 0), .num (min c 0)⟩,
     ⟨.num (max a 0), .num (max b 0), .num (max c 0)⟩⟩ := by
  simp only [Box3.expandByPoint, Box3.empty, jsMin_posInf_num, jsMax_negInf_num,
    JsVal.jsMin_num_num, JsVal.jsMax_num_num]
  simp [min_comm, min_left_comm, min_assoc, min_self, max_comm, max_left_comm, max_assoc,
    max_self]

/-- `Box3.applyMatrix4` on a finite box transforms its corners and takes
their AABB. -/
lemma box3ApplyMat4_num (m : Mat4) (a b c d e f : ℚ) :
    Box3.applyMat4 ⟨⟨.num a, .num b, .num c⟩, ⟨.num d, .num e, .num f⟩⟩ m =
      aabbOfCorners m (a, b, c) (d, e, f) := by
  simp only [Box3.applyMat4, Box3.corners, Box3.setFromPoints, List.map_cons, List.map_nil,
    List.foldl_cons, List.foldl_nil, Box3.expandByPoint, Box3.empty, V3.applyMat4_num,
    jsMin_posInf_num, jsMax_negInf_num, JsVal.jsMin_num_num, JsVal.jsMax_num_num,
    aabbOfCorners, cornerExtremes, mat4ApplyQ]

set_option maxHeartbeats 2000000 in
/-- Transforming the corners of the grid AABB gives the same AABB as
transforming the grid corners themselves (per-axis the corner pair
`{min(x,0), max(x,0)}` is the pair `{0, x}`). -/
lemma aabbOfCorners_clamp (m : Mat4) (x y z : ℚ) :
    aabbOfCorners m (min x 0, min y 0, min z 0) (max x 0, max y 0, max z 0) =
      aabbOfCorners m (0, 0, 0) (x, y, z) := by
  rcases le_total (0:ℚ) x with hx | hx <;>
  rcases le_total (0:ℚ) y with hy | hy <;>
  rcases le_total (0:ℚ) z with hz | hz <;>
    simp only [min_eq_left hx, min_eq_right hx, max_eq_left hx, max_eq_right hx,
      min_eq_left hy, min_eq_right hy, max_eq_left hy, max_eq_right hy,
      min_eq_left hz, min_eq_right hz, max_eq_left hz, max_eq_right hz,
      aabbOfCorners, cornerExtremes, Box3.mk.injEq, V3.mk.injEq, JsVal.num.injEq] <;>
    refine ⟨⟨?_, ?_, ?_⟩, ?_, ?_, ?_⟩ <;> ac_rfl

/-- The bounding box stored by `setMatrix` is the spec box. -/
lemma setMatrix_boundingBox (v : Volume) (m : Mat4) :
    (Volume.setMatrix v m).boundingBox = specBox m v.nx v.ny v.nz := by
  have h0 : (Volume.setMatrix v m).boundingBox =
      Box3.applyMat4
        ((((((((Box3.empty.expandByPoint
          ⟨.num ((v.nx : ℚ) - 1), .num ((v.ny : ℚ) - 1), .num ((v.nz : ℚ) - 1)⟩).expandByPoint
          ⟨.num ((v.nx : ℚ) - 1), .num ((v.ny : ℚ) - 1), .num 0⟩).expandByPoint
          ⟨.num ((v.nx : ℚ) - 1), .num 0, .num ((v.nz : ℚ) - 1)⟩).expandByPoint
          ⟨.num ((v.nx : ℚ) - 1), .num 0, .num 0⟩).expandByPoint
          ⟨.num 0, .num ((v.ny : ℚ) - 1), .num ((v.nz : ℚ) - 1)⟩).expandByPoint
          ⟨.num 0, .num 0, .num ((v.nz : ℚ) - 1)⟩).expandByPoint
          ⟨.num 0, .num ((v.ny : ℚ) - 1), .num 0⟩).expandByPoint
          ⟨.num 0, .num 0, .num 0⟩) m := rfl
  rw [h0, expandChain, box3ApplyMat4_num, aabbOfCorners_clamp]
  rfl

/-- The center stored by `setMatrix` is the spec centroid. -/
lemma setMatrix_center (v : Volume) (m : Mat4) :
    (Volume.setMatrix v m).center = specCenter m v.nx v.ny v.nz := by
  have h0 : (Volume.setMatrix v m).center =
      Box3.center ((Volume.setMatrix v m).boundingBox) := rfl
  rw [h0, setMatrix_boundingBox]
  simp only [specBox, aabbOfCorners, Box3.center, specCenter, JsVal.jsAdd_num_num,
    JsVal.jsMul_num_num, JsVal.num.injEq, V3.mk.injEq]
  refine ⟨?_, ?_, ?_⟩ <;> ring

/-- Spec-side consistency of the derived values with the current matrix
and grid extents (the invariant of §3 of the spec). -/
def derivedConsistent (v : Volume) : Prop :=
  v.normalMatrix = (Matrix.adjugate (linPart v.matrix)).transpose ∧
  (v.matrix.det ≠ 0 → v.inverseMatrix * v.matrix = 1 ∧ v.matrix * v.inverseMatrix = 1) ∧
  v.boundingBox = specBox v.matrix v.nx v.ny v.nz ∧
  v.center = specCenter v.matrix v.nx v.ny v.nz

/-- A freshly constructed 2×2×2 volume (no `setMatrix` call yet). -/
def c4Fresh : Volume :=
  Volume.create none none (some (List.replicate 8 (JsVal.num 0))) (some 2) (some 2) (some 2)
    none

/-- A uniform scaling by 2. -/
def scale2 : Mat4 := !![2, 0, 0, 0; 0, 2, 0, 0; 0, 0, 2, 0; 0, 0, 0, 1]

/-- C4 counterexample: the invariant is observable-state, and it fails at
two caller-visible points. A freshly constructed volume has the empty
sentinel bounding box (min = +∞), not the box of its grid under its
(identity) matrix; and `clone` copies the matrix without recomputing any
derived value, so the clone of a scaled volume keeps the identity
`normalMatrix` instead of the cofactor matrix of the scaling. -/
theorem c4_stale_derived_values :
    ¬ derivedConsistent c4Fresh ∧
    ¬ derivedConsistent (Volume.clone (Volume.setMatrix c4Fresh scale2)) := by
  constructor
  · rintro ⟨-, -, hbox, -⟩
    have h1 : c4Fresh.boundingBox = Box3.empty := rfl
    rw [h1] at hbox
    have := congrArg (fun b => b.min.x) hbox
    simp [Box3.empty, specBox, aabbOfCorners] at this
  · rintro ⟨hn, -, -, -⟩
    have h1 : (Volume.clone (Volume.setMatrix c4Fresh scale2)).normalMatrix = 1 := rfl
    have h2 : (Volume.clone (Volume.setMatrix c4Fresh scale2)).matrix = scale2 := rfl
    rw [h1, h2, ← normalFromMatrix_eq_adjugate] at hn
    have := congrFun (congrFun hn 0) 0
    norm_num [normalFromMatrix, cross3, colVec, scale2, Matrix.one_apply] at this

/-- C4 (amended): right after every `setMatrix(m)` call, `normalMatrix`,
`inverseMatrix`, `boundingBox` and `center` are all consistent with the
stored matrix and the current grid extents. The consistency claim does
not hold at every caller-observable point: a freshly constructed volume
(before any `setMatrix`), a volume whose `setData` changed the extents
since the last `setMatrix`, and the volume returned by `clone()` (which
copies the matrix raw) can expose stale derived values. -/
theorem c4_consistent_after_setMatrix (v : Volume) (m : Mat4) :
    derivedConsistent (Volume.setMatrix v m) := by
  have hm : (Volume.setMatrix v m).matrix = m := rfl
  have hn : (Volume.setMatrix v m).normalMatrix = normalFromMatrix m := rfl
  have hi : (Volume.setMatrix v m).inverseMatrix = mat4GetInverse m := rfl
  refine ⟨?_, fun h => ?_, ?_, ?_⟩
  · rw [hn, hm]
    exact normalFromMatrix_eq_adjugate m
  · rw [hm] at h ⊢
    rw [hi]
    exact ⟨mat4GetInverse_mul m h, mul_mat4GetInverse m h⟩
  · rw [hm]
    exact setMatrix_boundingBox v m
  · rw [hm]
    exact setMatrix_center v m

/-- Witness for C4 (amended) at the identity matrix on the default
volume. -/
theorem c4_consistent_after_setMatrix_witness :
    derivedConsistent (Volume.setMatrix defaultVol 1) :=
  c4_consistent_after_setMatrix defaultVol 1

/-- Witness for C5 (amended) at a concrete `NaN` isolevel on the default
volume. -/
theorem c5_nan_isolevel_defaulted_witness :
    JsVal.nan.jsIsNaN = true ∧
    ((Volume.getSurface trivialExt defaultVol .nan .undef none none).2.isolevel =
      (Volume.getValueForSigma defaultVol (.num 2)).2 ∧
    (match (Volume.getSurfaceWorker trivialExt true defaultVol .nan .undef none none).2 with
     | .posted p => p.isolevel = (Volume.getValueForSigma defaultVol (.num 2)).2
     | .sync s => s.isolevel = (Volume.getValueForSigma defaultVol (.num 2)).2) ∧
    (Volume.getValueForSigma defaultVol (.num 2)).2 =
      (JsR.ofVal (Volume.getDataMean defaultVol).2).add
        ((JsR.ofVal (.num 2)).mul (Volume.getDataRms defaultVol).2)) :=
  ⟨rfl, c5_nan_isolevel_defaulted trivialExt true defaultVol .nan .undef none none rfl⟩

/-! ### C7: the general (scanning) filter branch -/


section C7Helpers

variable {α : Type}

lemma take_set_of_le (l : List α) (k : ℕ) (x : α) (m : ℕ) (h : m ≤ k) :
    (l.set k x).take m = l.take m := by
  apply List.ext_getElem?
  intro n
  simp only [List.getElem?_take]
  split
  · exact List.getElem?_set_ne (by omega)
  · rfl

lemma take_set_succ (l : List α) (j : ℕ) (x : α) (h : j < l.length) :
    (l.set j x).take (j + 1) = l.take j ++ [x] := by
  rw [List.take_succ, take_set_of_le l j x j le_rfl, List.getElem?_set_eq_of_lt x h]
  rfl

lemma take_set3 (l : List α) (j : ℕ) (x y z : α) (h : 3 * j + 2 < l.length) :
    ((((l.set (3 * j) x).set (3 * j + 1) y).set (3 * j + 2) z).take (3 * j + 3)) =
      l.take (3 * j) ++ [x, y, z] := by
  have h1 : 3 * j < l.length := by omega
  have h2 : 3 * j + 1 < (l.set (3 * j) x).length := by
    rw [List.length_set]; omega
  have h3 : 3 * j + 2 < ((l.set (3 * j) x).set (3 * j + 1) y).length := by
    rw [List.length_set, List.length_set]; omega
  have e1 : (3 : ℕ) * j + 3 = (3 * j + 2) + 1 := by omega
  rw [e1, take_set_succ _ _ _ h3]
  have e2 : (3 : ℕ) * j + 2 = (3 * j + 1) + 1 := by omega
  rw [e2, take_set_succ _ _ _ h2, take_set_succ _ _ _ h1]
  simp

end C7Helpers

lemma JsVal.f32_of_ne_undef (a : JsVal) (h : a ≠ .undef) : a.f32 = a := by
  cases a <;> simp_all [JsVal.f32]

lemma getD_ne_undef (pos : List JsVal) (k : ℕ) (hk : k < pos.length)
    (h : JsVal.undef ∉ pos) : pos.getD k .undef ≠ .undef := by
  rw [List.getD_eq_getElem?_getD, List.getElem?_eq_getElem hk]
  simp only [Option.getD_some]
  intro habs
  exact h (habs ▸ List.getElem_mem hk)

/-- Spec: the retained grid-position triples in sample-index order - for
each index whose value passes the filter, the components
`dataPosition[3i]`, `dataPosition[3i+1]`, `dataPosition[3i+2]`. -/
def keptTriples (outside : Bool) (minV maxV : JsVal) (pos : List JsVal) :
    List JsVal → ℕ → List JsVal
  | [], _ => []
  | v :: rest, i =>
    (if Volume.keepSample outside minV maxV v then
       [pos.getD (3 * i) .undef, pos.getD (3 * i + 1) .undef, pos.getD (3 * i + 2) .undef]
     else []) ++ keptTriples outside minV maxV pos rest (i + 1)

lemma keptTriples_length (o : Bool) (mn mx : JsVal) (pos : List JsVal) :
    ∀ (rest : List JsVal) (i : ℕ),
      (keptTriples o mn mx pos rest i).length =
        3 * (rest.filter (fun w => Volume.keepSample o mn mx w)).length := by
  intro rest
  induction rest with
  | nil => intro i; simp [keptTriples]
  | cons v r ih =>
    intro i
    by_cases hk : Volume.keepSample o mn mx v
    · simp [keptTriples, hk, ih (i + 1)]
      omega
    · simp [keptTriples, hk, ih (i + 1)]


lemma filterLoop_spec (outside : Bool) (minV maxV : JsVal) (pos : List JsVal)
    (hpos : JsVal.undef ∉ pos) :
    ∀ (rest : List JsVal) (i j : ℕ) (bufP bufD : List JsVal),
      JsVal.undef ∉ rest →
      3 * (i + rest.length) ≤ pos.length →
      j + rest.length ≤ bufD.length →
      3 * (j + rest.length) ≤ bufP.length →
      ∃ bufP1 bufD1,
        Volume.filterLoop outside minV maxV (some pos) rest i bufP bufD j =
          some (bufP1, bufD1,
            j + (rest.filter (fun w => Volume.keepSample outside minV maxV w)).length) ∧
        bufP1.length = bufP.length ∧ bufD1.length = bufD.length ∧
        bufD1.take
            (j + (rest.filter (fun w => Volume.keepSample outside minV maxV w)).length) =
          bufD.take j ++ rest.filter (fun w => Volume.keepSample outside minV maxV w) ∧
        bufP1.take
            (3 * (j + (rest.filter (fun w => Volume.keepSample outside minV maxV w)).length)) =
          bufP.take (3 * j) ++ keptTriples outside minV maxV pos rest i := by
  intro rest
  induction rest with
  | nil =>
    intro i j bufP bufD _ _ _ _
    refine ⟨bufP, bufD, ?_, rfl, rfl, ?_, ?_⟩ <;>
      simp [Volume.filterLoop, keptTriples]
  | cons v r ih =>
    intro i j bufP bufD hrest hposlen hbd hbp
    have hvne : v ≠ JsVal.undef := fun habs => hrest (habs ▸ List.mem_cons_self v r)
    have hrne : JsVal.undef ∉ r := fun habs => hrest (List.mem_cons_of_mem v habs)
    by_cases hk : Volume.keepSample outside minV maxV v
    · -- kept: three position writes and one data write, then recurse
      have hstep : Volume.filterLoop outside minV maxV (some pos) (v :: r) i bufP bufD j =
          Volume.filterLoop outside minV maxV (some pos) r (i + 1)
            (((bufP.set (3 * j) (pos.getD (3 * i) .undef).f32).set (3 * j + 1)
                (pos.getD (3 * i + 1) .undef).f32).set (3 * j + 2)
                (pos.getD (3 * i + 2) .undef).f32)
            (bufD.set j v.f32) (j + 1) := by
        rw [Volume.filterLoop, if_pos hk]
      obtain ⟨bufP1, bufD1, hloop, hlp, hld, htd, htp⟩ :=
        ih (i + 1) (j + 1)
          (((bufP.set (3 * j) (pos.getD (3 * i) .undef).f32).set (3 * j + 1)
              (pos.getD (3 * i + 1) .undef).f32).set (3 * j + 2)
              (pos.getD (3 * i + 2) .undef).f32)
          (bufD.set j v.f32) hrne
          (by simp at hposlen ⊢; omega)
          (by simp [List.length_set] at hbd ⊢; omega)
          (by simp [List.length_set] at hbp ⊢; omega)
      have hfilter : (v :: r).filter (fun w => Volume.keepSample outside minV maxV w) =
          v :: r.filter (fun w => Volume.keepSample outside minV maxV w) := by
        simp [List.filter_cons, hk]
      have hlen1 : j + ((v :: r).filter
          (fun w => Volume.keepSample outside minV maxV w)).length =
          (j + 1) + (r.filter (fun w => Volume.keepSample outside minV maxV w)).length := by
        rw [hfilter]; simp; omega
      refine ⟨bufP1, bufD1, ?_, ?_, ?_, ?_, ?_⟩
      · rw [hstep, hloop, hlen1]
      · simp only [List.length_set] at hlp
        exact hlp
      · simp only [List.length_set] at hld
        exact hld
      · rw [hlen1, htd, hfilter]
        have hjlt : j < bufD.length := by simp at hbd; omega
        rw [JsVal.f32_of_ne_undef v hvne] at htd ⊢
        rw [take_set_succ bufD j v hjlt]
        simp
      · rw [hlen1, htp]
        have h3j : 3 * j + 2 < bufP.length := by simp at hbp; omega
        have hi0 : 3 * i < pos.length := by simp at hposlen; omega
        have hi1 : 3 * i + 1 < pos.length := by simp at hposlen; omega
        have hi2 : 3 * i + 2 < pos.length := by simp at hposlen; omega
        have e3 : 3 * ((j : ℕ) + 1) = 3 * j + 3 := by omega
        rw [JsVal.f32_of_ne_undef _ (getD_ne_undef pos _ hi0 hpos),
          JsVal.f32_of_ne_undef _ (getD_ne_undef pos _ hi1 hpos),
          JsVal.f32_of_ne_undef _ (getD_ne_undef pos _ hi2 hpos),
          e3, take_set3 bufP j _ _ _ h3j]
        have hkt : keptTriples outside minV maxV pos (v :: r) i =
            [pos.getD (3 * i) .undef, pos.getD (3 * i + 1) .undef,
             pos.getD (3 * i + 2) .undef] ++ keptTriples outside minV maxV pos r (i + 1) := by
          rw [keptTriples, if_pos hk]
        rw [hkt]
        simp
    · have hstep : Volume.filterLoop outside minV maxV (some pos) (v :: r) i bufP bufD j =
          Volume.filterLoop outside minV maxV (some pos) r (i + 1) bufP bufD j := by
        rw [Volume.filterLoop, if_neg hk]
      obtain ⟨bufP1, bufD1, hloop, hlp, hld, htd, htp⟩ :=
        ih (i + 1) j bufP bufD hrne
          (by simp at hposlen ⊢; omega)
          (by simp at hbd ⊢; omega)
          (by simp at hbp ⊢; omega)
      have hfilter : (v :: r).filter (fun w => Volume.keepSample outside minV maxV w) =
          r.filter (fun w => Volume.keepSample outside minV maxV w) := by
        simp [List.filter_cons, hk]
      have hkt : keptTriples outside minV maxV pos (v :: r) i =
          keptTriples outside minV maxV pos r (i + 1) := by
        rw [keptTriples, if_neg hk]
        simp
      refine ⟨bufP1, bufD1, ?_, hlp, hld, ?_, ?_⟩
      · rw [hstep, hloop, hfilter]
      · rw [hfilter, htd]
      · rw [hfilter, htp, hkt]


lemma jsAdd_ne_undef (x y : JsVal) : x.jsAdd y ≠ .undef := by
  cases x <;> cases y <;> simp [JsVal.jsAdd]

lemma applyToVector3Array_length (m : Mat4) : ∀ (l : List JsVal),
    (applyToVector3Array m l).length = l.length := by
  intro l
  induction l using applyToVector3Array.induct m with
  | case1 a b c rest ih => simp [applyToVector3Array, V3.toArray, ih]
  | case2 l h1 =>
    rcases l with _ | ⟨a, _ | ⟨b, _ | ⟨c, r⟩⟩⟩
    · rfl
    · rfl
    · rfl
    · exact ((h1 a b c r) rfl).elim

lemma applyToVector3Array_no_undef (m : Mat4) : ∀ (l : List JsVal),
    JsVal.undef ∉ l → JsVal.undef ∉ applyToVector3Array m l := by
  intro l
  induction l using applyToVector3Array.induct m with
  | case1 a b c rest ih =>
    intro h hmem
    rw [applyToVector3Array] at hmem
    rcases List.mem_append.mp hmem with hm | hm
    · simp only [V3.toArray, V3.applyMat4, List.mem_cons, List.not_mem_nil, or_false] at hm
      rcases hm with h1 | h1 | h1 <;> exact jsAdd_ne_undef _ _ h1.symm
    · exact ih (fun hr => h (List.mem_cons_of_mem _ (List.mem_cons_of_mem _
        (List.mem_cons_of_mem _ hr)))) hm
  | case2 l h1 =>
    intro h hmem
    rcases l with _ | ⟨a, _ | ⟨b, _ | ⟨c, r⟩⟩⟩
    · exact h hmem
    · exact h hmem
    · exact h hmem
    · exact ((h1 a b c r) rfl).elim


lemma filterGeneral_spec (v : Volume) (pos data : List JsVal) (mn mx : JsVal) (o : Bool)
    (hbuf : v.__dataBuffer = none)
    (hpos : JsVal.undef ∉ pos) (hdata : JsVal.undef ∉ data)
    (hplen : 3 * data.length ≤ pos.length) :
    ∃ w, Volume.filterGeneral v (some pos) data mn mx o = .ok w .general ∧
      w.data = data.filter (fun x => Volume.keepSample o mn mx x) ∧
      w.dataPosition = some (keptTriples o mn mx pos data 0) ∧
      w.__minValue = mn ∧ w.__maxValue = mx ∧ w.__outside = some o ∧
      (w.__dataBuffer.getD []).length = data.length ∧
      (w.__dataPositionBuffer.getD []).length = data.length * 3 := by
  have hv2 : Volume.ensureFilterBuffers v data.length =
      { v with __dataPositionBuffer := some (List.replicate (data.length * 3) (.num 0)),
               __dataBuffer := some (List.replicate data.length (.num 0)) } := by
    unfold Volume.ensureFilterBuffers
    rw [hbuf]
    rfl
  obtain ⟨bufP1, bufD1, hloop, hlp, hld, htd, htp⟩ :=
    filterLoop_spec o mn mx pos hpos data 0 0
      (List.replicate (data.length * 3) (.num 0)) (List.replicate data.length (.num 0))
      hdata (by simpa using hplen) (by simp) (by simp; omega)
  have hEq : Volume.filterGeneral v (some pos) data mn mx o =
      .ok { Volume.ensureFilterBuffers v data.length with
            __dataPositionBuffer := some bufP1, __dataBuffer := some bufD1,
            dataPosition := some (bufP1.take
              ((0 + (data.filter (fun x => Volume.keepSample o mn mx x)).length) * 3)),
            data := bufD1.take
              (0 + (data.filter (fun x => Volume.keepSample o mn mx x)).length),
            __minValue := mn, __maxValue := mx, __outside := some o } .general := by
    unfold Volume.filterGeneral
    simp only []
    rw [show (Volume.ensureFilterBuffers v data.length).__dataPositionBuffer.getD [] =
        List.replicate (data.length * 3) (.num 0) by rw [hv2]; rfl]
    rw [show (Volume.ensureFilterBuffers v data.length).__dataBuffer.getD [] =
        List.replicate data.length (.num 0) by rw [hv2]; rfl]
    rw [hloop]
  refine ⟨_, hEq, ?_, ?_, rfl, rfl, rfl, ?_, ?_⟩
  · show bufD1.take (0 + (data.filter (fun x => Volume.keepSample o mn mx x)).length) = _
    rw [htd]
    simp
  · show some (bufP1.take
        ((0 + (data.filter (fun x => Volume.keepSample o mn mx x)).length) * 3)) = _
    rw [Nat.mul_comm, htp]
    simp
  · show (Option.getD (some bufD1) []).length = data.length
    rw [Option.getD_some, hld, List.length_replicate]
  · show (Option.getD (some bufP1) []).length = data.length * 3
    rw [Option.getD_some, hlp, List.length_replicate]


lemma length_flatMap_const {α β : Type} (l : List α) (f : α → List β) (c : ℕ)
    (h : ∀ a ∈ l, (f a).length = c) : (l.flatMap f).length = l.length * c := by
  induction l with
  | nil => simp
  | cons x xs ih =>
    have hx := h x (List.mem_cons_self x xs)
    have ih2 := ih (fun a ha => h a (List.mem_cons_of_mem x ha))
    simp only [List.flatMap_cons, List.length_append, hx, ih2, List.length_cons]
    ring

lemma raw_length (nx ny nz : ℕ) :
    ((List.range nz).flatMap fun z => (List.range ny).flatMap fun y =>
      (List.range nx).flatMap fun x =>
        [JsVal.num x, JsVal.num y, JsVal.num z]).length = nz * (ny * (nx * 3)) := by
  rw [length_flatMap_const _ _ (ny * (nx * 3)) ?_, List.length_range]
  intro z _
  rw [length_flatMap_const _ _ (nx * 3) ?_, List.length_range]
  intro y _
  rw [length_flatMap_const _ _ 3 ?_, List.length_range]
  intro x _
  rfl

lemma raw_no_undef (nx ny nz : ℕ) :
    JsVal.undef ∉ ((List.range nz).flatMap fun z => (List.range ny).flatMap fun y =>
      (List.range nx).flatMap fun x => [JsVal.num x, JsVal.num y, JsVal.num z]) := by
  intro h
  simp only [List.mem_flatMap, List.mem_range, List.mem_cons, List.not_mem_nil,
    or_false] at h
  obtain ⟨z, -, y, -, x, -, h⟩ := h
  rcases h with h | h | h <;> cases h

def gridSweep (nx ny nz : ℕ) : List JsVal :=
  (List.range nz).flatMap fun z =>
    (List.range ny).flatMap fun y =>
      (List.range nx).flatMap fun x =>
        [JsVal.num x, JsVal.num y, JsVal.num z]

lemma gridSweep_length (nx ny nz : ℕ) :
    (gridSweep nx ny nz).length = nz * (ny * (nx * 3)) := raw_length nx ny nz

lemma gridSweep_no_undef (nx ny nz : ℕ) : JsVal.undef ∉ gridSweep nx ny nz :=
  raw_no_undef nx ny nz

lemma makeDataPosition_eq (v : Volume) :
    (Volume.makeDataPosition v).__dataPosition =
      some (applyToVector3Array v.matrix (gridSweep v.nx v.ny v.nz)) := rfl

@[simp] lemma makeDataPosition_sdata (v : Volume) :
    (Volume.makeDataPosition v).__data = v.__data := rfl

@[simp] lemma makeDataPosition_sdataBuffer (v : Volume) :
    (Volume.makeDataPosition v).__dataBuffer = v.__dataBuffer := rfl

lemma Volume.setData_header (v : Volume) (d : Option (List JsVal)) (nx ny nz : Option ℕ)
    (dai : Option (List ℤ)) : (Volume.setData v d nx ny nz dai).header = v.header := by
  simp only [Volume.setData, Volume.setDataAtomindex]
  split <;> rfl

lemma Volume.setData_dataPosition (v : Volume) (d : Option (List JsVal))
    (nx ny nz : Option ℕ) (dai : Option (List ℤ)) :
    (Volume.setData v d nx ny nz dai).dataPosition = v.dataPosition := by
  simp only [Volume.setData, Volume.setDataAtomindex]
  split <;> rfl

lemma Volume.setData_sdataBuffer (v : Volume) (d : Option (List JsVal))
    (nx ny nz : Option ℕ) (dai : Option (List ℤ)) :
    (Volume.setData v d nx ny nz dai).__dataBuffer = none := by
  simp only [Volume.setData, Volume.setDataAtomindex]
  split <;> rfl

lemma Volume.setData_minValue (v : Volume) (d : Option (List JsVal))
    (nx ny nz : Option ℕ) (dai : Option (List ℤ)) :
    (Volume.setData v d nx ny nz dai).__minValue = .undef := by
  simp only [Volume.setData, Volume.setDataAtomindex]
  split <;> rfl

lemma Volume.setData_nx (v : Volume) (d : Option (List JsVal))
    (nx ny nz : Option ℕ) (dai : Option (List ℤ)) :
    (Volume.setData v d nx ny nz dai).nx = Volume.natOr1 nx := by
  simp only [Volume.setData, Volume.setDataAtomindex]
  split <;> rfl

lemma Volume.setData_ny (v : Volume) (d : Option (List JsVal))
    (nx ny nz : Option ℕ) (dai : Option (List ℤ)) :
    (Volume.setData v d nx ny nz dai).ny = Volume.natOr1 ny := by
  simp only [Volume.setData, Volume.setDataAtomindex]
  split <;> rfl

lemma Volume.setData_nz (v : Volume) (d : Option (List JsVal))
    (nx ny nz : Option ℕ) (dai : Option (List ℤ)) :
    (Volume.setData v d nx ny nz dai).nz = Volume.natOr1 nz := by
  simp only [Volume.setData, Volume.setDataAtomindex]
  split <;> rfl

lemma Volume.natOr1_some (n : ℕ) (h : n ≠ 0) : Volume.natOr1 (some n) = n := by
  cases n with
  | zero => exact absurd rfl h
  | succ k => rfl

lemma Volume.create_header (name path : Option String) (d : Option (List JsVal))
    (nx ny nz : Option ℕ) (dai : Option (List ℤ)) :
    (Volume.create name path d nx ny nz dai).header = none := by
  simp only [Volume.create]
  split <;> rw [Volume.setData_header]

lemma Volume.create_dataPosition (name path : Option String) (d : Option (List JsVal))
    (nx ny nz : Option ℕ) (dai : Option (List ℤ)) :
    (Volume.create name path d nx ny nz dai).dataPosition = none := by
  simp only [Volume.create]
  split <;> rw [Volume.setData_dataPosition]

lemma Volume.create_sdataBuffer (name path : Option String) (d : Option (List JsVal))
    (nx ny nz : Option ℕ) (dai : Option (List ℤ)) :
    (Volume.create name path d nx ny nz dai).__dataBuffer = none := by
  simp only [Volume.create]
  split <;> rw [Volume.setData_sdataBuffer]

lemma Volume.create_minValue (name path : Option String) (d : Option (List JsVal))
    (nx ny nz : Option ℕ) (dai : Option (List ℤ)) :
    (Volume.create name path d nx ny nz dai).__minValue = .undef := by
  simp only [Volume.create]
  split <;> rw [Volume.setData_minValue]

lemma Volume.create_sdata (name path : Option String) (d : List JsVal)
    (nx ny nz : Option ℕ) (dai : Option (List ℤ)) :
    (Volume.create name path (some d) nx ny nz dai).__data = d := by
  simp only [Volume.create]
  split <;> rw [Volume.setData_sdata]

lemma Volume.create_nx (name path : Option String) (d : Option (List JsVal))
    (nx ny nz : Option ℕ) (dai : Option (List ℤ)) :
    (Volume.create name path d nx ny nz dai).nx = Volume.natOr1 nx := by
  simp only [Volume.create]
  split <;> rw [Volume.setData_nx]

lemma Volume.create_ny (name path : Option String) (d : Option (List JsVal))
    (nx ny nz : Option ℕ) (dai : Option (List ℤ)) :
    (Volume.create name path d nx ny nz dai).ny = Volume.natOr1 ny := by
  simp only [Volume.create]
  split <;> rw [Volume.setData_ny]

lemma Volume.create_nz (name path : Option String) (d : Option (List JsVal))
    (nx ny nz : Option ℕ) (dai : Option (List ℤ)) :
    (Volume.create name path d nx ny nz dai).nz = Volume.natOr1 nz := by
  simp only [Volume.create]
  split <;> rw [Volume.setData_nz]


lemma Volume.setMatrix_header (v : Volume) (m : Mat4) :
    (Volume.setMatrix v m).header = v.header := rfl

lemma Volume.setMatrix_dataPosition (v : Volume) (m : Mat4) :
    (Volume.setMatrix v m).dataPosition = v.dataPosition := rfl

lemma Volume.setMatrix_sdataBuffer (v : Volume) (m : Mat4) :
    (Volume.setMatrix v m).__dataBuffer = v.__dataBuffer := rfl

lemma Volume.setMatrix_minValue (v : Volume) (m : Mat4) :
    (Volume.setMatrix v m).__minValue = v.__minValue := rfl

lemma Volume.setMatrix_sdata (v : Volume) (m : Mat4) :
    (Volume.setMatrix v m).__data = v.__data := rfl

lemma Volume.setMatrix_nx (v : Volume) (m : Mat4) :
    (Volume.setMatrix v m).nx = v.nx := rfl

lemma Volume.setMatrix_ny (v : Volume) (m : Mat4) :
    (Volume.setMatrix v m).ny = v.ny := rfl

lemma Volume.setMatrix_nz (v : Volume) (m : Mat4) :
    (Volume.setMatrix v m).nz = v.nz := rfl

lemma Volume.setMatrix_matrix (v : Volume) (m : Mat4) :
    (Volume.setMatrix v m).matrix = m := rfl

lemma filterMinResolved_none_num (q : ℚ) :
    Volume.filterMinResolved none (.num q) = .num q := by
  simp [Volume.filterMinResolved, JsVal.jsIsNaN]

lemma filterMaxResolved_num (q : ℚ) :
    Volume.filterMaxResolved (.num q) = .num q := by
  simp [Volume.filterMaxResolved]

lemma jsSEq_num_undef (q : ℚ) : (JsVal.num q).jsSEq JsVal.undef = false := rfl

/-- C7: the general filter path. For any sample array `l` of the declared
`nx*ny*nz` extent (no `undefined` holes) and any finite triple
`(a, b, outside)` that is neither the skip triple nor the
`(-Infinity, Infinity)` alias, `filterData` takes the scanning branch and:
retains exactly the samples satisfying the documented predicate
`(!outside && a <= v && v <= b) || (outside && (v < a || v > b))`, in index
order (`List.filter`); appends the retained samples' grid-position triples
contiguously in the same order (`keptTriples`); and the exposed views are
right-sized: `data` has `retainedCount` entries and `dataPosition`
`3 * retainedCount`, as prefixes of the reused `n`- and `3n`-element
backing buffers. -/
theorem c7_general_filter_spec (name path : Option String) (dai : Option (List ℤ))
    (m : Mat4) (l : List JsVal) (nx ny nz : ℕ) (a b : ℚ) (outside : Bool)
    (hx : nx ≠ 0) (hy : ny ≠ 0) (hz : nz ≠ 0)
    (hlen : l.length = nx * ny * nz) (hu : JsVal.undef ∉ l) :
    ∃ w,
      Volume.filterData
          (Volume.setMatrix
            (Volume.create name path (some l) (some nx) (some ny) (some nz) dai) m)
          (.num a) (.num b) outside = .ok w .general ∧
      w.data = l.filter (fun x => Volume.keepSample outside (.num a) (.num b) x) ∧
      w.dataPosition =
        some (keptTriples outside (.num a) (.num b)
          (applyToVector3Array m (gridSweep nx ny nz)) l 0) ∧
      (∀ q : ℚ, Volume.keepSample outside (.num a) (.num b) (.num q) =
        (!outside && decide (a ≤ q) && decide (q ≤ b) ||
          outside && (decide (q < a) || decide (b < q)))) ∧
      w.data.length =
        (l.filter (fun x => Volume.keepSample outside (.num a) (.num b) x)).length ∧
      (w.dataPosition.getD []).length =
        3 * (l.filter (fun x => Volume.keepSample outside (.num a) (.num b) x)).length ∧
      (w.__dataBuffer.getD []).length = l.length ∧
      (w.__dataPositionBuffer.getD []).length = l.length * 3 := by
  set CV := Volume.setMatrix
    (Volume.create name path (some l) (some nx) (some ny) (some nz) dai) m with hCV
  have hheader : CV.header = none := by
    rw [hCV, Volume.setMatrix_header, Volume.create_header]
  have hdpn : CV.dataPosition = none := by
    rw [hCV, Volume.setMatrix_dataPosition, Volume.create_dataPosition]
  have hbuf : CV.__dataBuffer = none := by
    rw [hCV, Volume.setMatrix_sdataBuffer, Volume.create_sdataBuffer]
  have hminu : CV.__minValue = .undef := by
    rw [hCV, Volume.setMatrix_minValue, Volume.create_minValue]
  have hdat : CV.__data = l := by
    rw [hCV, Volume.setMatrix_sdata, Volume.create_sdata]
  have hnx : CV.nx = nx := by
    rw [hCV, Volume.setMatrix_nx, Volume.create_nx, Volume.natOr1_some nx hx]
  have hny : CV.ny = ny := by
    rw [hCV, Volume.setMatrix_ny, Volume.create_ny, Volume.natOr1_some ny hy]
  have hnz : CV.nz = nz := by
    rw [hCV, Volume.setMatrix_nz, Volume.create_nz, Volume.natOr1_some nz hz]
  have hm : CV.matrix = m := by rw [hCV, Volume.setMatrix_matrix]
  set POS := applyToVector3Array m (gridSweep nx ny nz) with hPOS
  set V1 := Volume.makeDataPosition CV with hV1
  have hpos : V1.__dataPosition = some POS := by
    rw [hV1, makeDataPosition_eq, hm, hnx, hny, hnz, hPOS]
  have hv1data : V1.__data = l := by rw [hV1, makeDataPosition_sdata, hdat]
  have hv1buf : V1.__dataBuffer = none := by rw [hV1, makeDataPosition_sdataBuffer, hbuf]
  have hv1min : V1.__minValue = JsVal.undef := by
    rw [hV1, makeDataPosition_minValue, hminu]
  have hposlen : 3 * l.length ≤ POS.length := by
    rw [hPOS, applyToVector3Array_length, gridSweep_length, hlen]
    have h3 : nz * (ny * (nx * 3)) = 3 * (nx * ny * nz) := by ring
    exact h3.ge
  have hposnundef : JsVal.undef ∉ POS := by
    rw [hPOS]
    exact applyToVector3Array_no_undef m _ (gridSweep_no_undef nx ny nz)
  have hfd : Volume.filterData CV (.num a) (.num b) outside =
      Volume.filterGeneral V1 (some POS) l (.num a) (.num b) outside := by
    simp only [Volume.filterData]
    rw [hheader, filterMinResolved_none_num, filterMaxResolved_num]
    rw [if_pos (show CV.dataPosition.isNone = true by rw [hdpn]; rfl)]
    rw [← hV1, hv1min, hpos, hv1data]
    rw [if_neg (by simp [jsSEq_num_undef])]
    rw [if_neg (show ¬(JsVal.num a = JsVal.negInf ∧ JsVal.num b = JsVal.posInf) from
      fun h => JsVal.noConfusion h.1)]
  obtain ⟨w, hEq, hwdata, hwpos, hwmin, hwmax, hwout, hbufLen, hposLen⟩ :=
    filterGeneral_spec V1 POS l (.num a) (.num b) outside hv1buf hposnundef hu hposlen
  refine ⟨w, hfd.trans hEq, hwdata, hwpos, fun q => rfl, ?_, ?_, hbufLen, hposLen⟩
  · rw [hwdata]
  · rw [hwpos]
    simp only [Option.getD_some]
    exact keptTriples_length outside (.num a) (.num b) POS l 0

/-- Witness for C7 at a concrete input: one sample `5` on a `1×1×1` grid
with the identity transform, filtered to the range `[0, 10]`. -/
theorem c7_general_filter_spec_witness :
    ((1 : ℕ) ≠ 0 ∧ [JsVal.num 5].length = 1 * 1 * 1 ∧ JsVal.undef ∉ [JsVal.num 5]) ∧
    (∃ w,
      Volume.filterData
          (Volume.setMatrix
            (Volume.create none none (some [JsVal.num 5]) (some 1) (some 1) (some 1) none) 1)
          (.num 0) (.num 10) false = .ok w .general ∧
      w.data = [JsVal.num 5].filter
        (fun x => Volume.keepSample false (.num 0) (.num 10) x) ∧
      w.dataPosition =
        some (keptTriples false (.num 0) (.num 10)
          (applyToVector3Array 1 (gridSweep 1 1 1)) [JsVal.num 5] 0) ∧
      (∀ q : ℚ, Volume.keepSample false (.num 0) (.num 10) (.num q) =
        (!false && decide ((0 : ℚ) ≤ q) && decide (q ≤ 10) ||
          false && (decide (q < 0) || decide ((10 : ℚ) < q)))) ∧
      w.data.length = ([JsVal.num 5].filter
        (fun x => Volume.keepSample false (.num 0) (.num 10) x)).length ∧
      (w.dataPosition.getD []).length =
        3 * ([JsVal.num 5].filter
          (fun x => Volume.keepSample false (.num 0) (.num 10) x)).length ∧
      (w.__dataBuffer.getD []).length = [JsVal.num 5].length ∧
      (w.__dataPositionBuffer.getD []).length = [JsVal.num 5].length * 3) :=
  ⟨⟨by decide, by decide, by decide⟩,
    c7_general_filter_spec none none none 1 [JsVal.num 5] 1 1 1 0 10 false
      (by decide) (by decide) (by decide) (by decide) (by decide)⟩
